import Mathlib

/-!
Shallow embedding of the `ggoodman/std` context/cancellation subsystem
(`src/context/context_impl.ts`, `src/context/callback_stack.ts`,
`src/context/errors.ts`) and of the synchronous disposal stack
(`src/disposable/disposable_stack.ts`).

Modelling conventions:

* A `World` holds every context node created so far (`Nat` is the index
  into `World.nodes`, allocation order), the external abort-signal objects,
  the current wall clock (`Date.now()` in epoch ms) and an observation trace
  recording user-handler invocations.
* JavaScript private fields are per-class slots.  `Node.baseDeadline` models
  `ContextImpl`'s own `#deadlineEpochMs` slot; the deadline subclass
  `ContextWithDeadlineImpl` declares a *distinct* private `#deadlineEpochMs`,
  which is modelled inside `Variant.withDeadline`.
* The `CallbackStack` of a node is modelled as `Node.handlers`:
  `none` is a null `#handlers` reference; `some l` is a stack whose head is
  the most recently pushed handler (the linked list's tail).  `push` conses,
  `fireEvent` repeatedly pops the head.
* JS closures registered as cancellation handlers mutate the world, so they
  are deeply embedded as the `Handler` inductive and interpreted by
  `runHandler`.  User-supplied handlers are represented by `user` (returns),
  `userThrow` (throws a tagged error) and `userProbe` (calls
  `isCancelled()` / `getCancellationError()` on its node and records the
  answers in the trace).
* Cancellation recursion (a broadcast cascading into child nodes) is bounded
  by an explicit `fuel` argument; every theorem either holds for all fuel or
  carries an explicit lower bound on it.
* Thrown JS exceptions are returned as a `List JsErr` (empty = no throw);
  `AggregateError` is `JsErr.aggregate`.
-/

namespace StdCtx

/- Node ids are indices into `World.nodes` (plain `Nat`); signal ids index
`World.signals`; opaque caller-supplied cancellation reasons / data values
are also represented as `Nat`. -/

/-- Error values from `errors.ts`: `CancellationErrorImpl` carries the
caller-supplied reason as `cause` (which is `undefined` when the caller passed
none, e.g. an abort-signal-like without a reason); `DeadlineExceededErrorImpl`
carries its message (defaulted to "Deadline exceeded" at construction). -/
inductive ContextError where
  | cancellation (cause : Option Nat)
  | deadlineExceeded (message : String)
  deriving DecidableEq

/-- Deep embedding of the closures pushed on a node's `CallbackStack`. -/
inductive Handler where
  /-- a user handler that records its invocation and returns -/
  | user (tag : Nat)
  /-- a user handler that throws a tagged error -/
  | userThrow (tag : Nat)
  /-- a user handler that calls `isCancelled()` / `getCancellationError()`
  on the node it was registered on and records the answers -/
  | userProbe (tag : Nat)
  /-- `(err) => ContextImpl.cancel(child, err)` registered on the parent by
  the child's constructor -/
  | cascade (child : Nat)
  /-- `() => this[disposeSymbol]()` registered first by the constructor -/
  | selfDispose (node : Nat)
  /-- `() => clearTimeout(this.#timeoutHandle)` registered by
  `ContextWithDeadlineImpl`'s constructor -/
  | clearTimer (node : Nat)
  /-- `() => signal.removeEventListener("abort", onAbort)` registered by
  `withAbortSignal` on the child it returns -/
  | removeSignalListener (sig : Nat) (node : Nat)
  deriving DecidableEq

/-- The node variants: `ContextImpl` (plain), `ContextWithDataImpl`,
`ContextWithDeadlineImpl` (the subclass's own `#deadlineEpochMs` and the
message captured by its timer closure), and `CancelledContextImpl` with its
construction-time `#cancellationError`. -/
inductive Variant where
  | plain
  | withData (key : Nat) (value : Nat)
  | withDeadline (deadlineEpochMs : Int) (message : String)
  | preCancelled (err : ContextError)
  deriving DecidableEq

structure Node where
  parentId : Option Nat
  /-- `ContextImpl`'s own `#deadlineEpochMs` slot (copied from the parent's
  same slot by the constructor; `null` is `none`). -/
  baseDeadline : Option Int
  variant : Variant
  /-- `#cancellationReason` -/
  cancellationReason : Option ContextError := none
  /-- `#handlers` (`none` = null); head = most recently pushed -/
  handlers : Option (List Handler) := none
  /-- whether this node's deadline timer is currently armed -/
  timerArmed : Bool := false
  deriving DecidableEq

/-- The platform abort-signal capability (`AbortSignalLike`): aborted flag,
reason, and the registered "abort" listeners.  Each listener is the `onAbort`
closure of one `withAbortSignal` call, identified by the child node it
cancels. -/
structure SignalState where
  aborted : Bool := false
  reason : Option Nat := none
  listeners : List Nat := []
  deriving DecidableEq

/-- Observable events: user handler invocations during broadcasts. -/
inductive TraceEv where
  | ran (node : Nat) (tag : Nat) (err : ContextError)
  | threw (node : Nat) (tag : Nat) (err : ContextError)
  | probed (node : Nat) (tag : Nat) (observedCancelled : Bool)
      (observedErr : Option ContextError)
  deriving DecidableEq

/-- Thrown JS exceptions (`AggregateError` bundles several). -/
inductive JsErr where
  | tag (t : Nat)
  | aggregate (errs : List JsErr)

structure World where
  nodes : List Node := []
  signals : List (Nat × SignalState) := []
  now : Int := 0
  trace : List TraceEv := []
  deriving DecidableEq

/-- Update node `n` in place (no-op when the id is unknown). -/
def updNode (w : World) (n : Nat) (f : Node → Node) : World :=
  match w.nodes[n]? with
  | some nd => { w with nodes := w.nodes.set n (f nd) }
  | none => w

def getNode (w : World) (n : Nat) : Option Node := w.nodes[n]?

/-- The value `getCancellationError()` answers without side effects: the
`CancelledContextImpl` override returns the construction-time error; every
other variant reports the stored `#cancellationReason`. -/
def viewErr (w : World) (n : Nat) : Option ContextError :=
  match getNode w n with
  | none => none
  | some nd =>
    match nd.variant with
    | .preCancelled e => some e
    | _ => nd.cancellationReason

/-- `__checkCancellationState()`: only `ContextWithDeadlineImpl` overrides it,
returning a fresh default-message `DeadlineExceededErrorImpl` once its own
deadline has passed; the base implementation returns `undefined`. -/
def checkCancellationState (w : World) (n : Nat) : Option ContextError :=
  match getNode w n with
  | some nd =>
    match nd.variant with
    | .withDeadline t _ =>
      if t ≤ w.now then some (.deadlineExceeded "Deadline exceeded") else none
    | _ => none
  | none => none

/-- `ContextImpl[disposeSymbol]()`: the disposer releases the cascade
subscription held on the parent (removing this node's `cascade` entry from the
parent's callback stack) and disposes the callback stack; the method then
nulls `#handlers`.  `ContextWithDeadlineImpl`'s override also clears its
timer. -/
def disposeNode (w : World) (n : Nat) : World :=
  match getNode w n with
  | none => w
  | some nd =>
    let w :=
      match nd.parentId with
      | some p =>
        updNode w p fun pnd =>
          { pnd with handlers := pnd.handlers.map (·.erase (.cascade n)) }
      | none => w
    updNode w n fun nd => { nd with handlers := none, timerArmed := false }

/-- Remove the `onAbort` listener that cancels node `n` from signal `s`. -/
def removeListener (w : World) (s : Nat) (n : Nat) : World :=
  match w.signals.lookup s with
  | none => w
  | some st =>
    { w with
      signals := (s, { st with listeners := st.listeners.erase n }) :: w.signals }

def getSignal (w : World) (s : Nat) : SignalState :=
  (w.signals.lookup s).getD {}

def setSignal (w : World) (s : Nat) (st : SignalState) : World :=
  { w with signals := (s, st) :: w.signals }

mutual

/-- `ContextImpl.cancel(ctx, err)` (the static): no-op when
`#cancellationReason` is already set; otherwise records the error, fires the
callback stack, and nulls `#handlers` — the latter only when the broadcast
did not throw, since in the source that assignment follows the
`fireEvent` call.  Returns the world plus the list of errors the broadcast
collected (nonempty = `fireEvent` threw an `AggregateError`). -/
def cancelCtx : Nat → World → Nat → ContextError → World × List JsErr
  | 0, w, _, _ => (w, [])
  | fuel + 1, w, n, err =>
    match getNode w n with
    | none => (w, [])
    | some nd =>
      if nd.cancellationReason.isSome then (w, [])
      else
        let w1 := updNode w n fun nd => { nd with cancellationReason := some err }
        let (w2, errs) := fireEvent fuel w1 n err
        if errs.isEmpty then
          (updNode w2 n fun nd => { nd with handlers := none }, [])
        else (w2, errs)

/-- `CallbackStack.fireEvent(err)`: repeatedly pops the most recently pushed
handler and invokes it, collecting (not propagating) everything thrown, until
the stack is empty (or has been disposed/nulled by a handler). -/
def fireEvent : Nat → World → Nat → ContextError → World × List JsErr
  | 0, w, _, _ => (w, [])
  | fuel + 1, w, n, err =>
    match getNode w n with
    | none => (w, [])
    | some nd =>
      match nd.handlers with
      | none => (w, [])
      | some [] => (w, [])
      | some (h :: rest) =>
        let w1 := updNode w n fun nd => { nd with handlers := some rest }
        let (w2, errs1) := runHandler fuel w1 n h err
        let (w3, errs2) := fireEvent fuel w2 n err
        (w3, errs1 ++ errs2)

/-- Interpretation of one popped handler closure. -/
def runHandler : Nat → World → Nat → Handler → ContextError → World × List JsErr
  | 0, w, _, _, _ => (w, [])
  | fuel + 1, w, n, h, err =>
    match h with
    | .user tag => ({ w with trace := w.trace ++ [.ran n tag err] }, [])
    | .userThrow tag => ({ w with trace := w.trace ++ [.threw n tag err] }, [.tag tag])
    | .userProbe tag =>
      ({ w with
          trace := w.trace ++ [.probed n tag (viewErr w n).isSome (viewErr w n)] },
        [])
    | .cascade child =>
      let (w', errs) := cancelCtx fuel w child err
      (w', if errs.isEmpty then [] else [.aggregate errs])
    | .selfDispose m => (disposeNode w m, [])
    | .clearTimer m =>
      (updNode w m fun nd => { nd with timerArmed := false }, [])
    | .removeSignalListener s m => (removeListener w s m, [])

end

/-- `getCancellationError()`: return the stored reason if already cancelled
(for `CancelledContextImpl`, the overriding fixed error); otherwise evaluate
the per-variant extra condition on this node and on the parent, and if it
newly holds, perform the full cancellation transition before answering.  The
middle component is what the broadcast threw (propagated to the caller). -/
def getCancellationErrorM (fuel : Nat) (w : World) (n : Nat) :
    World × List JsErr × Option ContextError :=
  match getNode w n with
  | none => (w, [], none)
  | some nd =>
    match nd.variant with
    | .preCancelled e => (w, [], some e)
    | _ =>
      if nd.cancellationReason.isSome then (w, [], nd.cancellationReason)
      else
        let reason :=
          (checkCancellationState w n).orElse fun _ =>
            match nd.parentId with
            | some p => checkCancellationState w p
            | none => none
        match reason with
        | some r =>
          let (w', errs) := cancelCtx fuel w n r
          (w', errs, (getNode w' n).bind (·.cancellationReason))
        | none => (w, [], none)

/-- `ContextControllerImpl.#cancel(reason)`: return if `isCancelled()`;
otherwise wrap the reason in a `CancellationErrorImpl` and run
`ContextImpl.cancel`. -/
def cancelViaController (fuel : Nat) (w : World) (n : Nat)
    (reason : Option Nat) : World × List JsErr :=
  let (w1, errs, v) := getCancellationErrorM fuel w n
  match v with
  | some _ => (w1, errs)
  | none =>
    let (w2, errs2) := cancelCtx fuel w1 n (.cancellation reason)
    (w2, errs ++ errs2)

/-- `onDidCancel(handlerFn)`: lazily create the callback stack, then push. -/
def onDidCancel (w : World) (n : Nat) (h : Handler) : World :=
  updNode w n fun nd => { nd with handlers := some (h :: nd.handlers.getD []) }

/-- The shared `ContextImpl` constructor for a child: allocate the node
(copying the parent's base `#deadlineEpochMs` slot), register the
self-dispose subscription on itself, then the cascade subscription on the
parent. -/
def newChildNode (w : World) (p : Nat) (variant : Variant) : World × Nat :=
  let c := w.nodes.length
  let base := (getNode w p).bind (·.baseDeadline)
  let w :=
    { w with
      nodes := w.nodes ++ [{ parentId := some p, baseDeadline := base, variant := variant }] }
  let w := onDidCancel w c (.selfDispose c)
  let w := onDidCancel w p (.cascade c)
  (w, c)

/-- `createRootContext()`. -/
def createRootContext (w : World) : World × Nat :=
  (({ w with
      nodes := w.nodes ++ [{ parentId := none, baseDeadline := none, variant := .plain }] }),
    w.nodes.length)

def withCancel (w : World) (p : Nat) : World × Nat :=
  newChildNode w p .plain

def withData (w : World) (p : Nat) (key : Nat) (value : Nat) :
    World × Nat :=
  newChildNode w p (.withData key value)

/-- `ContextWithDeadlineImpl`'s constructor: after the base constructor, store
the deadline in the subclass's own slot, arm the timer, and register the
timer-clearing handler on itself. -/
def mkDeadlineChild (w : World) (p : Nat) (t : Int) (message : Option String) :
    World × Nat :=
  let (w, c) := newChildNode w p (.withDeadline t (message.getD "Deadline exceeded"))
  let w := updNode w c fun nd => { nd with timerArmed := true }
  let w := onDidCancel w c (.clearTimer c)
  (w, c)

/-- `withDeadline(deadlineEpochMs, message?)`.  The guard of the
"no narrowing needed" branch is JS-truthy: `#deadlineEpochMs &&
#deadlineEpochMs < deadlineEpochMs` (a base slot holding `0` is falsy). -/
def withDeadline (w : World) (p : Nat) (t : Int) (message : Option String) :
    World × Nat :=
  if t ≤ w.now then
    newChildNode w p
      (.preCancelled (.deadlineExceeded (message.getD "Deadline exceeded")))
  else
    match (getNode w p).bind (·.baseDeadline) with
    | some d => if d ≠ 0 ∧ d < t then newChildNode w p .plain
                else mkDeadlineChild w p t message
    | none => mkDeadlineChild w p t message

/-- `withTimeout(timeoutMs, message?) = withDeadline(Date.now() + timeoutMs)`. -/
def withTimeout (w : World) (p : Nat) (ms : Int) (message : Option String) :
    World × Nat :=
  withDeadline w p (w.now + ms) message

/-- `withAbortSignal(signal)`: derive a plain child via `withCancel`, register
on it the handler that removes the abort listener, then add the `onAbort`
listener to the signal. -/
def withAbortSignal (w : World) (p : Nat) (s : Nat) : World × Nat :=
  let (w, c) := withCancel w p
  let w := onDidCancel w c (.removeSignalListener s c)
  let st := getSignal w s
  let w := setSignal w s { st with listeners := st.listeners ++ [c] }
  (w, c)

/-- Platform abort dispatch: set the aborted flag and reason, then run each
registered `onAbort` closure — `ref.cancel(signal.reason)` — in registration
order (snapshot of the listener list, as in DOM event dispatch). -/
def runAbortListeners (fuel : Nat) (w : World) (s : Nat) :
    List Nat → World × List JsErr
  | [] => (w, [])
  | c :: rest =>
    let cur := (getSignal w s).reason
    let (w1, errs1) := cancelViaController fuel w c cur
    let (w2, errs2) := runAbortListeners fuel w1 s rest
    (w2, errs1 ++ errs2)

def abortSignal (fuel : Nat) (w : World) (s : Nat) (reason : Option Nat) :
    World × List JsErr :=
  let st := getSignal w s
  if st.aborted then (w, [])
  else
    let w := setSignal w s { st with aborted := true, reason := reason }
    runAbortListeners fuel w s st.listeners

/-- The deadline timer callback:
`ContextImpl.cancel(this, new DeadlineExceededErrorImpl(message))`, firing at
its due time if not cleared. -/
def timerFire (fuel : Nat) (w : World) (n : Nat) : World :=
  match getNode w n with
  | some nd =>
    match nd.variant with
    | .withDeadline t msg =>
      if nd.timerArmed ∧ t ≤ w.now then (cancelCtx fuel w n (.deadlineExceeded msg)).1
      else w
    | _ => w
  | none => w

/-- `getDeadline() { return this.#deadlineEpochMs ?? undefined; }` — reads the
base-class slot (not overridden by any subclass). -/
def getDeadline (w : World) (n : Nat) : Option Int :=
  (getNode w n).bind (·.baseDeadline)

/-- `getData(key)`: `ContextWithDataImpl` short-circuits on its own key,
everything else delegates to the parent chain (fuel bounds the chain walk). -/
def getData : Nat → World → Nat → Nat → Option (Nat × Nat)
  | 0, _, _, _ => none
  | fuel + 1, w, n, k =>
    match getNode w n with
    | none => none
    | some nd =>
      match nd.variant with
      | .withData key v =>
        if key = k then some (key, v)
        else
          match nd.parentId with
          | some p => getData fuel w p k
          | none => none
      | _ =>
        match nd.parentId with
        | some p => getData fuel w p k
        | none => none

/-- Every externally triggerable operation of the context subsystem, for
stating invariants over arbitrary interleavings. -/
inductive Op where
  | opCreateRoot
  | opWithCancel (p : Nat)
  | opWithData (p : Nat) (k : Nat) (v : Nat)
  | opWithDeadline (p : Nat) (t : Int) (msg : Option String)
  | opWithTimeout (p : Nat) (ms : Int) (msg : Option String)
  | opWithAbortSignal (p : Nat) (s : Nat)
  | opRegisterUser (n : Nat) (tag : Nat)
  | opRegisterThrow (n : Nat) (tag : Nat)
  | opRegisterProbe (n : Nat) (tag : Nat)
  | opCtrlCancel (n : Nat) (reason : Option Nat)
  | opQueryCancellation (n : Nat)
  | opTimerFire (n : Nat)
  | opAbortSignal (s : Nat) (reason : Option Nat)
  | opDispose (n : Nat)
  | opAdvanceTime (d : Nat)

/-- The parent reference of a node. -/
def parentOf (w : World) (n : Nat) : Option Nat :=
  (getNode w n).bind (·.parentId)

/-- Register a list of handlers on one node, in list order. -/
def registerHandlers (w : World) (n : Nat) (hs : List Handler) : World :=
  hs.foldl (fun w h => onDidCancel w n h) w

/-- One derivation step of the public API, used to build arbitrary
parent/child chains for the cascade theorems. -/
inductive StepSpec where
  | cancelStep
  | dataStep (k : Nat) (v : Nat)
  | deadlineStep (t : Int) (msg : Option String)
  | timeoutStep (ms : Int) (msg : Option String)
  | signalStep (s : Nat)

def buildStep (w : World) (p : Nat) : StepSpec → World × Nat
  | .cancelStep => withCancel w p
  | .dataStep k v => withData w p k v
  | .deadlineStep t msg => withDeadline w p t msg
  | .timeoutStep ms msg => withTimeout w p ms msg
  | .signalStep s => withAbortSignal w p s

/-- Build a descendant chain: each step derives a child of the previous
step's node. -/
def buildChain (w : World) (p : Nat) : List StepSpec → World
  | [] => w
  | s :: ss => buildChain (buildStep w p s).1 (buildStep w p s).2 ss

/-- The variant a derivation step produces (when the parent's base
`#deadlineEpochMs` slot is empty, as it always is for reachable worlds). -/
def specVariant (now : Int) : StepSpec → Variant
  | .cancelStep => .plain
  | .dataStep k v => .withData k v
  | .deadlineStep t msg =>
    if t ≤ now then .preCancelled (.deadlineExceeded (msg.getD "Deadline exceeded"))
    else .withDeadline t (msg.getD "Deadline exceeded")
  | .timeoutStep ms msg =>
    if now + ms ≤ now then .preCancelled (.deadlineExceeded (msg.getD "Deadline exceeded"))
    else .withDeadline (now + ms) (msg.getD "Deadline exceeded")
  | .signalStep _ => .plain

/-- The internal handlers (besides self-dispose and cascade) a derivation
step leaves on the fresh child `c`. -/
def specExtras (now : Int) (c : Nat) : StepSpec → List Handler
  | .cancelStep => []
  | .dataStep _ _ => []
  | .deadlineStep t _ => if t ≤ now then [] else [.clearTimer c]
  | .timeoutStep ms _ => if now + ms ≤ now then [] else [.clearTimer c]
  | .signalStep s => [.removeSignalListener s c]

/-- Whether a derivation step arms a deadline timer on the fresh child. -/
def specTimer (now : Int) : StepSpec → Bool
  | .deadlineStep t _ => decide (¬ t ≤ now)
  | .timeoutStep ms _ => decide (¬ now + ms ≤ now)
  | _ => false

def Variant.isPre : Variant → Bool
  | .preCancelled _ => true
  | _ => false

/-- Whether a handler is a user-registered one (as opposed to the internal
cascade / dispose / timer / listener subscriptions). -/
def isUserHandler : Handler → Bool
  | .user _ => true
  | .userThrow _ => true
  | .userProbe _ => true
  | _ => false

/-- The trace event one user handler leaves when fired on node `c` with the
delivered error `err`, while the node's `getCancellationError()` answers
`ov`. -/
def userEv (c : Nat) (err : ContextError) (ov : Option ContextError) :
    Handler → TraceEv
  | .user tag => .ran c tag err
  | .userThrow tag => .threw c tag err
  | .userProbe tag => .probed c tag ov.isSome ov
  | _ => .ran c 0 err

/-- The error a user handler throws during the broadcast, if any. -/
def thrownOf : Handler → Option JsErr
  | .userThrow tag => some (.tag tag)
  | _ => none

/-- Handlers whose interpretation touches only node `c`'s timer flag or the
external signals: the timer-clearing and listener-removing subscriptions a
derivation step installs on its own child. -/
def Benign (c : Nat) (h : Handler) : Prop :=
  (∃ s, h = .clearTimer c ∨ h = .removeSignalListener s c)

/-- The shape a freshly built descendant chain of length `k` starting at node
id `c` with parent `q` has: each chain node is uncancelled, points at its
predecessor, and its callback stack holds (newest first) the cascade
subscription to the next chain node (when one exists), at most one benign
internal handler, and the self-dispose subscription. -/
def ChainAt (w : World) : Nat → Nat → Nat → Prop
  | _, _, 0 => True
  | q, c, k + 1 =>
    (∃ nd bs, getNode w c = some nd ∧ nd.parentId = some q ∧
      nd.cancellationReason = none ∧
      nd.variant.isPre = false ∧
      checkCancellationState w c = none ∧
      (∀ h ∈ bs, Benign c h) ∧ bs.length ≤ 1 ∧
      nd.handlers =
        some ((if k = 0 then [] else [.cascade (c + 1)]) ++ bs ++ [.selfDispose c]))
    ∧ ChainAt w c (c + 1) k

def applyOp (fuel : Nat) (op : Op) (w : World) : World :=
  match op with
  | .opCreateRoot => (createRootContext w).1
  | .opWithCancel p => (withCancel w p).1
  | .opWithData p k v => (withData w p k v).1
  | .opWithDeadline p t msg => (withDeadline w p t msg).1
  | .opWithTimeout p ms msg => (withTimeout w p ms msg).1
  | .opWithAbortSignal p s => (withAbortSignal w p s).1
  | .opRegisterUser n tag => onDidCancel w n (.user tag)
  | .opRegisterThrow n tag => onDidCancel w n (.userThrow tag)
  | .opRegisterProbe n tag => onDidCancel w n (.userProbe tag)
  | .opCtrlCancel n r => (cancelViaController fuel w n r).1
  | .opQueryCancellation n => (getCancellationErrorM fuel w n).1
  | .opTimerFire n => timerFire fuel w n
  | .opAbortSignal s r => (abortSignal fuel w s r).1
  | .opDispose n => disposeNode w n
  | .opAdvanceTime d => { w with now := w.now + d }

end StdCtx

/-!
Embedding of the synchronous `DisposableStack`
(`src/disposable/disposable_stack.ts`) and of `SuppressedError`
(`src/disposable/errors.ts`).  A registered entry is abstracted as a pair of
an identifier and a flag saying whether its disposal callback throws (the
thrown value being a `DispErr.tag` of the identifier); `use`, `adopt` and
`defer` all push exactly one entry on the internal array.
-/

namespace StdDisposable

/-- Disposal failures: a raw thrown error, or a `SuppressedError` wrapping
the newly thrown `error` and the previously accumulated `suppressed` one. -/
inductive DispErr where
  | tag (id : Nat)
  | suppressed (error : DispErr) (suppressedPrev : DispErr)
  deriving DecidableEq

/-- Every raw error reachable through the `error`/`suppressed` chain. -/
def DispErr.members : DispErr → List Nat
  | .tag i => [i]
  | .suppressed e p => e.members ++ p.members

def membersO : Option DispErr → List Nat
  | none => []
  | some e => e.members

structure DisposableStack where
  disposed : Bool := false
  /-- registration order; an entry is (id, whether its disposal throws) -/
  stack : List (Nat × Bool) := []
  deriving DecidableEq

/-- `use` / `adopt` / `defer`: push one entry on the internal array. -/
def push (d : DisposableStack) (id : Nat) (throws : Bool) : DisposableStack :=
  { d with stack := d.stack ++ [(id, throws)] }

/-- The `while (this.#stack.length) { pop; try … catch … }` loop of
`[disposeSymbol]`, receiving the entries in pop (reverse-registration) order:
returns the accumulated `topError` and the order in which entries were
disposed.  `topError` logic: the first failure is kept raw, each later
failure wraps the previous as its suppressed error. -/
def disposeEntries : List (Nat × Bool) → Option DispErr → Option DispErr × List Nat
  | [], top => (top, [])
  | (id, throws) :: rest, top =>
    let top' :=
      if throws then
        some (match top with
          | none => .tag id
          | some t => .suppressed (.tag id) t)
      else top
    let r := disposeEntries rest top'
    (r.1, id :: r.2)

/-- `DisposableStack[disposeSymbol]()`: idempotent; pops and disposes every
entry in reverse-registration order even if some throw; re-raises the chained
failure (second component), also reporting the disposal order (third). -/
def dispose (d : DisposableStack) : DisposableStack × Option DispErr × List Nat :=
  if d.disposed then (d, none, [])
  else
    let r := disposeEntries d.stack.reverse none
    ({ disposed := true, stack := [] }, r.1, r.2)

end StdDisposable

/-! ## Basic lemmas about the world state -/

namespace StdCtx

theorem getNode_lt_length {w : World} {n : Nat} {nd : Node}
    (h : getNode w n = some nd) : n < w.nodes.length := by
  unfold getNode at h
  exact (List.getElem?_eq_some.mp h).1

theorem updNode_of_none {w : World} {n : Nat} {f : Node → Node}
    (h : getNode w n = none) : updNode w n f = w := by
  unfold getNode at h
  unfold updNode
  simp [h]

theorem getNode_updNode_self {w : World} {n : Nat} {nd : Node} {f : Node → Node}
    (h : getNode w n = some nd) : getNode (updNode w n f) n = some (f nd) := by
  have hlt : n < w.nodes.length := getNode_lt_length h
  unfold getNode at h
  unfold updNode getNode
  simp only [h]
  exact List.getElem?_set_self hlt

theorem getNode_updNode_ne {w : World} {n m : Nat} {f : Node → Node}
    (h : m ≠ n) : getNode (updNode w n f) m = getNode w m := by
  unfold updNode getNode
  cases hg : w.nodes[n]? with
  | none => rfl
  | some nd => simp [List.getElem?_set_ne (Ne.symm h)]

@[simp] theorem updNode_now (w : World) (n : Nat) (f : Node → Node) :
    (updNode w n f).now = w.now := by
  unfold updNode; cases hg : w.nodes[n]? <;> simp

@[simp] theorem updNode_trace (w : World) (n : Nat) (f : Node → Node) :
    (updNode w n f).trace = w.trace := by
  unfold updNode; cases hg : w.nodes[n]? <;> simp

@[simp] theorem updNode_signals (w : World) (n : Nat) (f : Node → Node) :
    (updNode w n f).signals = w.signals := by
  unfold updNode; cases hg : w.nodes[n]? <;> simp

@[simp] theorem updNode_length (w : World) (n : Nat) (f : Node → Node) :
    (updNode w n f).nodes.length = w.nodes.length := by
  unfold updNode; cases hg : w.nodes[n]? <;> simp

@[simp] theorem getNode_set_signals {w : World} {s m} :
    getNode { w with signals := s } m = getNode w m := rfl

@[simp] theorem getNode_set_trace {w : World} {tr m} :
    getNode { w with trace := tr } m = getNode w m := rfl

@[simp] theorem getNode_set_now {w : World} {t m} :
    getNode { w with now := t } m = getNode w m := rfl

/-! ### `onDidCancel` and the shared child constructor -/

theorem getNode_onDidCancel_self {w : World} {n : Nat} {nd : Node} {h : Handler}
    (hg : getNode w n = some nd) :
    getNode (onDidCancel w n h) n =
      some { nd with handlers := some (h :: nd.handlers.getD []) } := by
  unfold onDidCancel
  exact getNode_updNode_self hg

theorem getNode_onDidCancel_ne {w : World} {n m : Nat} {h : Handler}
    (hm : m ≠ n) : getNode (onDidCancel w n h) m = getNode w m := by
  unfold onDidCancel
  exact getNode_updNode_ne hm

@[simp] theorem onDidCancel_now (w : World) (n : Nat) (h : Handler) :
    (onDidCancel w n h).now = w.now := by unfold onDidCancel; simp

@[simp] theorem onDidCancel_trace (w : World) (n : Nat) (h : Handler) :
    (onDidCancel w n h).trace = w.trace := by unfold onDidCancel; simp

@[simp] theorem onDidCancel_signals (w : World) (n : Nat) (h : Handler) :
    (onDidCancel w n h).signals = w.signals := by unfold onDidCancel; simp

@[simp] theorem onDidCancel_length (w : World) (n : Nat) (h : Handler) :
    (onDidCancel w n h).nodes.length = w.nodes.length := by unfold onDidCancel; simp

@[simp] theorem newChildNode_id (w : World) (p : Nat) (v : Variant) :
    (newChildNode w p v).2 = w.nodes.length := rfl

theorem getNode_appendNode {w : World} {nd : Node} {m : Nat} (hm : m < w.nodes.length) :
    getNode { w with nodes := w.nodes ++ [nd] } m = getNode w m := by
  unfold getNode
  simp [List.getElem?_append, hm]

theorem getNode_appendNode_self {w : World} {nd : Node} :
    getNode { w with nodes := w.nodes ++ [nd] } w.nodes.length = some nd := by
  unfold getNode
  simp [List.getElem?_concat_length]

theorem newChildNode_get_child {w : World} {p : Nat} {v : Variant}
    (hp : p < w.nodes.length) :
    getNode (newChildNode w p v).1 w.nodes.length =
      some { parentId := some p, baseDeadline := (getNode w p).bind (·.baseDeadline),
             variant := v, cancellationReason := none,
             handlers := some [.selfDispose w.nodes.length], timerArmed := false } := by
  have hne : w.nodes.length ≠ p := Nat.ne_of_gt hp
  simp only [newChildNode]
  rw [getNode_onDidCancel_ne hne]
  rw [getNode_onDidCancel_self getNode_appendNode_self]
  rfl

theorem newChildNode_get_parent {w : World} {p : Nat} {v : Variant} {nd : Node}
    (hp : getNode w p = some nd) :
    getNode (newChildNode w p v).1 p =
      some { nd with handlers := some (.cascade w.nodes.length :: nd.handlers.getD []) } := by
  have hlt := getNode_lt_length hp
  have hne : p ≠ w.nodes.length := Nat.ne_of_lt hlt
  simp only [newChildNode]
  have h1 : getNode { w with nodes := w.nodes ++
      [{ parentId := some p, baseDeadline := (getNode w p).bind (·.baseDeadline),
         variant := v : Node }] } p = some nd := by
    rw [getNode_appendNode hlt]; exact hp
  rw [getNode_onDidCancel_self (getNode_onDidCancel_ne hne ▸ h1)]

theorem newChildNode_get_other {w : World} {p m : Nat} {v : Variant}
    (hm : m < w.nodes.length) (hmp : m ≠ p) :
    getNode (newChildNode w p v).1 m = getNode w m := by
  have hne : m ≠ w.nodes.length := Nat.ne_of_lt hm
  simp only [newChildNode]
  rw [getNode_onDidCancel_ne hmp, getNode_onDidCancel_ne hne]
  exact getNode_appendNode hm

@[simp] theorem newChildNode_length (w : World) (p : Nat) (v : Variant) :
    (newChildNode w p v).1.nodes.length = w.nodes.length + 1 := by
  simp only [newChildNode]; simp

@[simp] theorem newChildNode_now (w : World) (p : Nat) (v : Variant) :
    (newChildNode w p v).1.now = w.now := by simp only [newChildNode]; simp

@[simp] theorem newChildNode_trace (w : World) (p : Nat) (v : Variant) :
    (newChildNode w p v).1.trace = w.trace := by simp only [newChildNode]; simp

@[simp] theorem newChildNode_signals (w : World) (p : Nat) (v : Variant) :
    (newChildNode w p v).1.signals = w.signals := by simp only [newChildNode]; simp

end StdCtx

/-! ## Disposal stack lemmas (claim C8) -/

namespace StdDisposable

theorem disposeEntries_order (l : List (Nat × Bool)) (top : Option DispErr) :
    (disposeEntries l top).2 = l.map (·.1) := by
  induction l generalizing top with
  | nil => rfl
  | cons e rest ih =>
    obtain ⟨id, throws⟩ := e
    simp [disposeEntries, ih]

theorem DispErr.members_ne_nil (e : DispErr) : e.members ≠ [] := by
  induction e with
  | tag i => simp [DispErr.members]
  | suppressed a b iha ihb => simp [DispErr.members, iha]

theorem membersO_eq_nil {o : Option DispErr} : membersO o = [] ↔ o = none := by
  cases o with
  | none => simp [membersO]
  | some e => simp [membersO, DispErr.members_ne_nil e]

theorem membersO_none : membersO none = [] := rfl

theorem disposeEntries_members (l : List (Nat × Bool)) (top : Option DispErr) :
    membersO (disposeEntries l top).1 =
      ((l.filter (·.2)).map (·.1)).reverse ++ membersO top := by
  induction l generalizing top with
  | nil => simp [disposeEntries]
  | cons e rest ih =>
    obtain ⟨id, throws⟩ := e
    cases throws with
    | false => simp [disposeEntries, ih]
    | true =>
      simp only [disposeEntries, List.filter_cons]
      rw [ih]
      cases top <;> simp [membersO, DispErr.members]

/-- C8: `DisposableStack` disposal — for any registered entries, `dispose`
invokes every entry exactly once in strict reverse-registration order even if
some throw; the raised failure's suppressed/cause chain contains exactly the
errors thrown (in registration order), and nothing is raised exactly when no
entry threw; disposal is idempotent.  In the X, Y, Z scenario with Y throwing,
the order is Z, Y, X and the call fails with Y's failure in the chain; when two
entries throw, the later failure wraps the earlier (pop-wise previous) one as
`SuppressedError`. -/
theorem dispose_reverse_exhaustive_chained
    (entries : List (Nat × Bool)) (x y z : Nat) :
    (dispose ⟨false, entries⟩).2.2 = (entries.map (·.1)).reverse
    ∧ membersO (dispose ⟨false, entries⟩).2.1 = (entries.filter (·.2)).map (·.1)
    ∧ ((dispose ⟨false, entries⟩).2.1 = none ↔ entries.filter (·.2) = [])
    ∧ (dispose ⟨false, entries⟩).1.disposed = true
    ∧ dispose (dispose ⟨false, entries⟩).1 = ((dispose ⟨false, entries⟩).1, none, [])
    ∧ (dispose ⟨false, [(x, false), (y, true), (z, false)]⟩).2.2 = [z, y, x]
    ∧ (dispose ⟨false, [(x, false), (y, true), (z, false)]⟩).2.1 = some (.tag y)
    ∧ y ∈ membersO (dispose ⟨false, [(x, false), (y, true), (z, false)]⟩).2.1
    ∧ (dispose ⟨false, [(x, true), (y, true), (z, false)]⟩).2.1 =
        some (.suppressed (.tag x) (.tag y)) := by
  have h2 : membersO (dispose ⟨false, entries⟩).2.1 =
      (entries.filter (·.2)).map (·.1) := by
    simp [dispose, disposeEntries_members, List.filter_reverse,
      List.map_reverse, membersO_none]
  refine ⟨?_, h2, ?_, ?_, ?_, ?_, ?_, ?_, ?_⟩
  · simp [dispose, disposeEntries_order]
  · constructor
    · intro h
      rw [h, membersO_none] at h2
      exact List.map_eq_nil_iff.mp h2.symm
    · intro h
      apply membersO_eq_nil.mp
      rw [h2, h]
      rfl
  · simp [dispose]
  · simp [dispose]
  · simp [dispose, disposeEntries]
  · simp [dispose, disposeEntries]
  · simp [dispose, disposeEntries, membersO, DispErr.members]
  · simp [dispose, disposeEntries]

end StdDisposable

/-! ## Deadline claims (C3, C5, C6) -/

namespace StdCtx

/-- C3 (code bug): a deadline-bearing child created by `withDeadline(t)` with
`t` in the future does *not* report `getDeadline() = t`: the subclass stores
`t` in its own private slot (visible in the node's variant below) while
`getDeadline` reads the base-class `#deadlineEpochMs` slot, which is only ever
a copy of the parent's and hence `none`; a plain grandchild inherits `none`
as well, so the narrowed deadline is invisible to the whole subtree. -/
theorem getDeadline_of_deadline_child_is_none :
    (getNode (withDeadline (createRootContext {}).1 0 1000 none).1 1).map (·.variant)
      = some (.withDeadline 1000 "Deadline exceeded")
    ∧ (getNode (withDeadline (createRootContext {}).1 0 1000 none).1 1).map (·.timerArmed)
      = some true
    ∧ getDeadline (withDeadline (createRootContext {}).1 0 1000 none).1 1 = none
    ∧ getDeadline (withCancel (withDeadline (createRootContext {}).1 0 1000 none).1 1).1 2
      = none := by
  exact ⟨rfl, rfl, rfl, rfl⟩

/-- C6 (code bug): deriving `withDeadline(t)` from a context whose effective
deadline is the same `t` (here `t = 100`, both in the future) does *not*
return a plain child with an inherited deadline and no timer: the code's
"no narrowing" guard reads the base-class deadline slot, which is never
written, so a fresh deadline-bearing child with its own armed timer is
created instead. -/
theorem withDeadline_no_narrowing_branch_is_dead :
    (getNode (withDeadline (withDeadline (createRootContext {}).1 0 100 none).1 1 100 none).1 2).map
        (·.variant) = some (.withDeadline 100 "Deadline exceeded")
    ∧ (getNode (withDeadline (withDeadline (createRootContext {}).1 0 100 none).1 1 100 none).1 2).map
        (·.timerArmed) = some true := by
  exact ⟨rfl, rfl⟩

/-- C5: for any context `p` and timestamp `t` not later than the current
time, `withDeadline(t)` synchronously returns an already-cancelled node: its
variant is the pre-cancelled one holding a `DeadlineExceededError` fixed at
construction, no timer is armed, and `isCancelled()`/`getCancellationError()`
answer immediately (with no further side effects) with that fixed error. -/
theorem withDeadline_past_yields_cancelled_node
    (w : World) (p : Nat) (t : Int) (msg : Option String) (fuel : Nat)
    (hp : p < w.nodes.length) (ht : t ≤ w.now) :
    (getNode (withDeadline w p t msg).1 (withDeadline w p t msg).2).map (·.variant)
      = some (.preCancelled (.deadlineExceeded (msg.getD "Deadline exceeded")))
    ∧ (getNode (withDeadline w p t msg).1 (withDeadline w p t msg).2).map (·.timerArmed)
      = some false
    ∧ viewErr (withDeadline w p t msg).1 (withDeadline w p t msg).2
      = some (.deadlineExceeded (msg.getD "Deadline exceeded"))
    ∧ getCancellationErrorM fuel (withDeadline w p t msg).1 (withDeadline w p t msg).2
      = ((withDeadline w p t msg).1, [], some (.deadlineExceeded (msg.getD "Deadline exceeded"))) := by
  have hw : withDeadline w p t msg =
      newChildNode w p (.preCancelled (.deadlineExceeded (msg.getD "Deadline exceeded"))) := by
    simp [withDeadline, ht]
  rw [hw]
  have hget := newChildNode_get_child (v := .preCancelled (.deadlineExceeded (msg.getD "Deadline exceeded"))) hp
  rw [newChildNode_id]
  refine ⟨?_, ?_, ?_, ?_⟩
  · rw [hget]; rfl
  · rw [hget]; rfl
  · simp [viewErr, hget]
  · simp [getCancellationErrorM, hget]

/-- Witness for C5 at a concrete input. -/
theorem withDeadline_past_yields_cancelled_node_witness :
    (0 < ((createRootContext ({} : World)).1).nodes.length
      ∧ (-1 : Int) ≤ ((createRootContext ({} : World)).1).now)
    ∧ viewErr (withDeadline (createRootContext ({} : World)).1 0 (-1) none).1
        (withDeadline (createRootContext ({} : World)).1 0 (-1) none).2
      = some (.deadlineExceeded "Deadline exceeded") :=
  ⟨⟨by decide, by decide⟩,
    (withDeadline_past_yields_cancelled_node (createRootContext ({} : World)).1 0 (-1) none 0
      (by decide) (by decide)).2.2.1⟩

end StdCtx

/-! ## Context data lookups (claim C9) -/

namespace StdCtx

theorem getData_congr {w' w : World}
    (hdown : ∀ m nd q, getNode w m = some nd → nd.parentId = some q → q < m)
    (hagree : ∀ m, m < w.nodes.length →
      ((getNode w' m).map fun nd => (nd.variant, nd.parentId))
        = ((getNode w m).map fun nd => (nd.variant, nd.parentId))) :
    ∀ fuel n k, n < w.nodes.length → getData fuel w' n k = getData fuel w n k := by
  intro fuel
  induction fuel with
  | zero => intro n k _; rfl
  | succ fuel ih =>
    intro n k hn
    have hpair := hagree n hn
    cases hg : getNode w n with
    | none =>
      rw [hg] at hpair
      have hw' : getNode w' n = none := by
        cases hg' : getNode w' n with
        | none => rfl
        | some nd' => rw [hg'] at hpair; simp at hpair
      simp [getData, hg, hw']
    | some nd =>
      rw [hg] at hpair
      cases hg' : getNode w' n with
      | none => rw [hg'] at hpair; simp at hpair
      | some nd' =>
        rw [hg'] at hpair
        simp only [Option.map_some', Option.some_inj, Prod.mk.injEq] at hpair
        obtain ⟨hv, hpid⟩ := hpair
        simp only [getData, hg, hg', hv, hpid]
        cases hvar : nd.variant with
        | withData key v =>
          by_cases hk : key = k
          · subst hk; simp
          · simp only [hk, if_neg hk]
            cases hpid2 : nd.parentId with
            | none => rfl
            | some q => exact ih q k (Nat.lt_trans (hdown n nd q hg hpid2) hn)
        | plain =>
          cases hpid2 : nd.parentId with
          | none => rfl
          | some q => exact ih q k (Nat.lt_trans (hdown n nd q hg hpid2) hn)
        | withDeadline t msg =>
          cases hpid2 : nd.parentId with
          | none => rfl
          | some q => exact ih q k (Nat.lt_trans (hdown n nd q hg hpid2) hn)
        | preCancelled e =>
          cases hpid2 : nd.parentId with
          | none => rfl
          | some q => exact ih q k (Nat.lt_trans (hdown n nd q hg hpid2) hn)

end StdCtx

namespace StdCtx

theorem withData_def (w : World) (p : Nat) (k : Nat) (v : Nat) :
    withData w p k v = newChildNode w p (.withData k v) := rfl

theorem withCancel_def (w : World) (p : Nat) :
    withCancel w p = newChildNode w p .plain := rfl

theorem getNode_of_lt {w : World} {m : Nat} (hm : m < w.nodes.length) :
    ∃ nd, getNode w m = some nd := by
  unfold getNode
  cases hg : w.nodes[m]? with
  | none => exact absurd (List.getElem?_eq_none_iff.mp hg) (by omega)
  | some nd => exact ⟨nd, rfl⟩

/-- C9: `withData(k, v)` produces a node answering `getData(k)` with the pair
`(k, v)`; a plain grandchild with no competing binding resolves to the same
pair; a descendant that rebinds `k` to `v2` shadows the ancestor's value for
`k` only, while every other key delegates through the ancestor chain, where it
resolves exactly as it did from the original parent (nearest match, or nothing
when no binding exists anywhere). -/
theorem withData_lookup_shadowing
    (w : World) (p : Nat) (k v v2 k' : Nat) (fuel : Nat)
    (hp : p < w.nodes.length)
    (hdown : ∀ m nd q, getNode w m = some nd → nd.parentId = some q → q < m)
    (hk' : k' ≠ k) :
    getData (fuel + 1) (withData w p k v).1 (withData w p k v).2 k = some (k, v)
    ∧ getData (fuel + 2) (withCancel (withData w p k v).1 (withData w p k v).2).1
        (withCancel (withData w p k v).1 (withData w p k v).2).2 k = some (k, v)
    ∧ getData (fuel + 1) (withData (withData w p k v).1 (withData w p k v).2 k v2).1
        (withData (withData w p k v).1 (withData w p k v).2 k v2).2 k = some (k, v2)
    ∧ getData (fuel + 2) (withData (withData w p k v).1 (withData w p k v).2 k v2).1
        (withData (withData w p k v).1 (withData w p k v).2 k v2).2 k'
      = getData fuel (withData (withData w p k v).1 (withData w p k v).2 k v2).1 p k'
    ∧ getData fuel (withData (withData w p k v).1 (withData w p k v).2 k v2).1 p k'
      = getData fuel w p k' := by
  -- the fresh data child
  have hc1 : getNode (withData w p k v).1 (withData w p k v).2 =
      some { parentId := some p, baseDeadline := (getNode w p).bind (·.baseDeadline),
             variant := .withData k v, cancellationReason := none,
             handlers := some [.selfDispose w.nodes.length], timerArmed := false } := by
    rw [withData_def, newChildNode_id]
    exact newChildNode_get_child hp
  have hc1lt : (withData w p k v).2 < (withData w p k v).1.nodes.length := by
    rw [withData_def, newChildNode_id, newChildNode_length]; omega
  -- the data child as seen from inside the second derivation (handlers consed)
  have hc1' : getNode (withData (withData w p k v).1 (withData w p k v).2 k v2).1
      (withData w p k v).2 =
      some { parentId := some p, baseDeadline := (getNode w p).bind (·.baseDeadline),
             variant := .withData k v, cancellationReason := none,
             handlers := some [.cascade (withData w p k v).1.nodes.length,
               .selfDispose w.nodes.length], timerArmed := false } := by
    rw [withData_def (withData w p k v).1]
    rw [newChildNode_get_parent hc1]
    rfl
  -- grandchild entry
  have hgc : getNode (withCancel (withData w p k v).1 (withData w p k v).2).1
      (withCancel (withData w p k v).1 (withData w p k v).2).2 =
      some { parentId := some (withData w p k v).2,
             baseDeadline := (getNode (withData w p k v).1 (withData w p k v).2).bind (·.baseDeadline),
             variant := .plain, cancellationReason := none,
             handlers := some [.selfDispose (withData w p k v).1.nodes.length],
             timerArmed := false } := by
    rw [withCancel_def, newChildNode_id]
    exact newChildNode_get_child hc1lt
  -- the data child as seen from inside the grandchild derivation
  have hc1'' : getNode (withCancel (withData w p k v).1 (withData w p k v).2).1
      (withData w p k v).2 =
      some { parentId := some p, baseDeadline := (getNode w p).bind (·.baseDeadline),
             variant := .withData k v, cancellationReason := none,
             handlers := some [.cascade (withData w p k v).1.nodes.length,
               .selfDispose w.nodes.length], timerArmed := false } := by
    rw [withCancel_def]
    rw [newChildNode_get_parent hc1]
    rfl
  -- the second data child entry
  have hc2 : getNode (withData (withData w p k v).1 (withData w p k v).2 k v2).1
      (withData (withData w p k v).1 (withData w p k v).2 k v2).2 =
      some { parentId := some (withData w p k v).2,
             baseDeadline := (getNode (withData w p k v).1 (withData w p k v).2).bind (·.baseDeadline),
             variant := .withData k v2, cancellationReason := none,
             handlers := some [.selfDispose (withData w p k v).1.nodes.length],
             timerArmed := false } := by
    rw [withData_def (withData w p k v).1, newChildNode_id]
    exact newChildNode_get_child hc1lt
  refine ⟨?_, ?_, ?_, ?_, ?_⟩
  · simp [getData, hc1]
  · simp [getData, hgc, hc1'']
  · simp [getData, hc2]
  · simp [getData, hc2, hc1', hk', Ne.symm hk']
  · apply getData_congr hdown _ fuel p k' hp
    intro m hm
    have hm1 : m < (withData w p k v).1.nodes.length := by
      rw [withData_def, newChildNode_length]; omega
    have hmc1 : m ≠ (withData w p k v).2 := by
      rw [withData_def, newChildNode_id]; omega
    by_cases hmp : m = p
    · obtain ⟨nd, hgp⟩ := getNode_of_lt hp
      have h2 : getNode (withData (withData w p k v).1 (withData w p k v).2 k v2).1 m
          = getNode (withData w p k v).1 m := by
        rw [withData_def (withData w p k v).1]
        exact newChildNode_get_other hm1 hmc1
      rw [h2, hmp, withData_def, newChildNode_get_parent hgp, hgp]
      rfl
    · have h2 : getNode (withData (withData w p k v).1 (withData w p k v).2 k v2).1 m
          = getNode (withData w p k v).1 m := by
        rw [withData_def (withData w p k v).1]
        exact newChildNode_get_other hm1 hmc1
      have h1 : getNode (withData w p k v).1 m = getNode w m := by
        rw [withData_def]
        exact newChildNode_get_other hm hmp
      rw [h2, h1]

end StdCtx

namespace StdCtx

/-- Witness for C9 at a concrete input. -/
theorem withData_lookup_shadowing_witness :
    ((0 : Nat) < ((createRootContext ({} : World)).1).nodes.length ∧ (6 : Nat) ≠ 5)
    ∧ getData 2 (withData (createRootContext ({} : World)).1 0 5 7).1
        (withData (createRootContext ({} : World)).1 0 5 7).2 5 = some (5, 7)
    ∧ getData 2 (withData (withData (createRootContext ({} : World)).1 0 5 7).1
        (withData (createRootContext ({} : World)).1 0 5 7).2 5 8).1
        (withData (withData (createRootContext ({} : World)).1 0 5 7).1
        (withData (createRootContext ({} : World)).1 0 5 7).2 5 8).2 5 = some (5, 8) := by
  have hdown : ∀ m nd q, getNode (createRootContext ({} : World)).1 m = some nd →
      nd.parentId = some q → q < m := by
    intro m nd q hg hq
    have hm : m < 1 := getNode_lt_length hg
    have hm0 : m = 0 := by omega
    subst hm0
    rw [show getNode (createRootContext ({} : World)).1 0 =
      some { parentId := none, baseDeadline := none, variant := .plain } from rfl] at hg
    cases hg
    simp at hq
  have H := withData_lookup_shadowing (createRootContext ({} : World)).1 0 5 7 8 6 1
    (by decide) hdown (by decide)
  exact ⟨⟨by decide, by decide⟩, H.1, H.2.2.1⟩

end StdCtx

/-! ## Dispose and broadcast lemmas -/

namespace StdCtx

theorem disposeNode_get_self {w : World} {n q : Nat} {nd : Node}
    (hget : getNode w n = some nd) (hpid : nd.parentId = some q) (hq : q ≠ n) :
    getNode (disposeNode w n) n = some { nd with handlers := none, timerArmed := false } := by
  simp only [disposeNode, hget, hpid]
  have h1 : getNode (updNode w q
      (fun pnd => { pnd with handlers := pnd.handlers.map (·.erase (.cascade n)) })) n
      = some nd := by
    rw [getNode_updNode_ne (Ne.symm hq)]; exact hget
  rw [getNode_updNode_self h1, hpid]

theorem disposeNode_get_parent {w : World} {n q : Nat} {nd : Node}
    (hget : getNode w n = some nd) (hpid : nd.parentId = some q) (hq : q ≠ n) :
    getNode (disposeNode w n) q = (getNode w q).map
      (fun pnd => { pnd with handlers := pnd.handlers.map (·.erase (.cascade n)) }) := by
  simp only [disposeNode, hget, hpid]
  rw [getNode_updNode_ne hq]
  cases hgq : getNode w q with
  | none => rw [updNode_of_none hgq, hgq]; rfl
  | some pnd => rw [getNode_updNode_self hgq]; rfl

theorem disposeNode_get_other {w : World} {n q m : Nat} {nd : Node}
    (hget : getNode w n = some nd) (hpid : nd.parentId = some q)
    (hm : m ≠ n) (hmq : m ≠ q) :
    getNode (disposeNode w n) m = getNode w m := by
  simp only [disposeNode, hget, hpid]
  rw [getNode_updNode_ne hm, getNode_updNode_ne hmq]

theorem disposeNode_now (w : World) (n : Nat) : (disposeNode w n).now = w.now := by
  simp only [disposeNode]
  cases hget : getNode w n with
  | none => rfl
  | some nd => cases hpid : nd.parentId <;> simp [hpid]

theorem disposeNode_trace (w : World) (n : Nat) : (disposeNode w n).trace = w.trace := by
  simp only [disposeNode]
  cases hget : getNode w n with
  | none => rfl
  | some nd => cases hpid : nd.parentId <;> simp [hpid]

theorem disposeNode_signals (w : World) (n : Nat) : (disposeNode w n).signals = w.signals := by
  simp only [disposeNode]
  cases hget : getNode w n with
  | none => rfl
  | some nd => cases hpid : nd.parentId <;> simp [hpid]

theorem disposeNode_length (w : World) (n : Nat) :
    (disposeNode w n).nodes.length = w.nodes.length := by
  simp only [disposeNode]
  cases hget : getNode w n with
  | none => rfl
  | some nd => cases hpid : nd.parentId <;> simp [hpid]

theorem viewErr_of_get {w : World} {n : Nat} {nd : Node}
    (hget : getNode w n = some nd) :
    viewErr w n = match nd.variant with
      | .preCancelled e => some e
      | _ => nd.cancellationReason := by
  unfold viewErr
  rw [hget]

set_option maxHeartbeats 1000000 in
/-- Firing a callback stack that holds only user handlers above the
constructor's self-dispose subscription: handlers run newest-first (strict
reverse registration order), each exactly once with the delivered error;
probes observe the node's current cancellation answer; thrown errors are
collected in firing order and do not stop the broadcast; afterwards the node
has self-disposed (its cascade subscription erased from the parent, its
callback stack nulled, its timer cleared) and nothing else changed. -/
theorem fireEvent_users (us : List Handler) :
    ∀ (fuel : Nat) (w : World) (c q : Nat) (nd : Node) (err : ContextError)
      (ov : Option ContextError),
    getNode w c = some nd →
    nd.handlers = some (us ++ [.selfDispose c]) →
    nd.parentId = some q →
    q ≠ c →
    (∀ h ∈ us, isUserHandler h = true) →
    viewErr w c = ov →
    us.length + 3 ≤ fuel →
    ∃ w', fireEvent fuel w c err = (w', us.filterMap thrownOf)
      ∧ w'.trace = w.trace ++ us.map (userEv c err ov)
      ∧ (∀ m, m ≠ c → m ≠ q → getNode w' m = getNode w m)
      ∧ getNode w' c = some { nd with handlers := none, timerArmed := false }
      ∧ getNode w' q = (getNode w q).map
          (fun pnd => { pnd with handlers := pnd.handlers.map (·.erase (.cascade c)) })
      ∧ w'.now = w.now ∧ w'.nodes.length = w.nodes.length ∧ w'.signals = w.signals := by
  induction us with
  | nil =>
    intro fuel w c q nd err ov hget hh hpid hq _ hview hfuel
    obtain ⟨f, rfl⟩ : ∃ f, fuel = f + 3 := ⟨fuel - 3, by omega⟩
    have hget1 : getNode (updNode w c fun nd => { nd with handlers := some [] }) c
        = some { nd with handlers := some [] } := getNode_updNode_self hget
    have hpid1 : ({ nd with handlers := some ([] : List Handler) } : Node).parentId = some q := hpid
    refine ⟨disposeNode (updNode w c fun nd => { nd with handlers := some [] }) c, ?_, ?_, ?_, ?_, ?_, ?_, ?_, ?_⟩
    · simp only [fireEvent, hget, hh, List.nil_append]
      simp only [runHandler]
      have hget2 := disposeNode_get_self hget1 hpid1 hq
      simp only [fireEvent, hget2]
      rfl
    · rw [disposeNode_trace]; simp
    · intro m hmc hmq
      rw [disposeNode_get_other hget1 hpid1 hmc hmq, getNode_updNode_ne hmc]
    · rw [disposeNode_get_self hget1 hpid1 hq]
    · rw [disposeNode_get_parent hget1 hpid1 hq, getNode_updNode_ne hq]
    · rw [disposeNode_now]; simp
    · rw [disposeNode_length]; simp
    · rw [disposeNode_signals]; simp
  | cons h rest ih =>
    intro fuel w c q nd err ov hget hh hpid hq husers hview hfuel
    obtain ⟨f, rfl⟩ : ∃ f, fuel = f + 1 := ⟨fuel - 1, by omega⟩
    have hget1 : getNode (updNode w c fun nd => { nd with handlers := some (rest ++ [.selfDispose c]) }) c
        = some { nd with handlers := some (rest ++ [.selfDispose c]) } := getNode_updNode_self hget
    have hview1 : viewErr (updNode w c fun nd => { nd with handlers := some (rest ++ [.selfDispose c]) }) c = ov := by
      rw [viewErr_of_get hget1]
      rw [viewErr_of_get hget] at hview
      exact hview
    have hfuel1 : rest.length + 3 ≤ f := by
      simp only [List.length_cons] at hfuel; omega
    -- the world after the popped user handler ran
    have hrun : ∃ w2, runHandler f (updNode w c fun nd => { nd with handlers := some (rest ++ [.selfDispose c]) }) c h err
        = (w2, (thrownOf h).toList)
        ∧ w2.trace = w.trace ++ [userEv c err ov h]
        ∧ getNode w2 = getNode (updNode w c fun nd => { nd with handlers := some (rest ++ [.selfDispose c]) })
        ∧ w2.now = w.now ∧ w2.nodes.length = w.nodes.length ∧ w2.signals = w.signals := by
      obtain ⟨f', rfl⟩ : ∃ f', f = f' + 1 := ⟨f - 1, by omega⟩
      have hu := husers h (by simp)
      cases h with
      | user tag =>
        refine ⟨{ updNode w c (fun nd => { nd with handlers := some (rest ++ [.selfDispose c]) }) with
            trace := (updNode w c (fun nd => { nd with handlers := some (rest ++ [.selfDispose c]) })).trace
              ++ [.ran c tag err] }, ?_, ?_, rfl, ?_, ?_, ?_⟩
        · simp [runHandler, thrownOf]
        · simp [userEv]
        · simp
        · simp
        · simp
      | userThrow tag =>
        refine ⟨{ updNode w c (fun nd => { nd with handlers := some (rest ++ [.selfDispose c]) }) with
            trace := (updNode w c (fun nd => { nd with handlers := some (rest ++ [.selfDispose c]) })).trace
              ++ [.threw c tag err] }, ?_, ?_, rfl, ?_, ?_, ?_⟩
        · simp [runHandler, thrownOf]
        · simp [userEv]
        · simp
        · simp
        · simp
      | userProbe tag =>
        refine ⟨{ updNode w c (fun nd => { nd with handlers := some (rest ++ [.selfDispose c]) }) with
            trace := (updNode w c (fun nd => { nd with handlers := some (rest ++ [.selfDispose c]) })).trace
              ++ [.probed c tag
                    (viewErr (updNode w c (fun nd => { nd with handlers := some (rest ++ [.selfDispose c]) })) c).isSome
                    (viewErr (updNode w c (fun nd => { nd with handlers := some (rest ++ [.selfDispose c]) })) c)] },
            ?_, ?_, rfl, ?_, ?_, ?_⟩
        · simp [runHandler, thrownOf]
        · simp [userEv, hview1]
        · simp
        · simp
        · simp
      | cascade child => simp [isUserHandler] at hu
      | selfDispose m => simp [isUserHandler] at hu
      | clearTimer m => simp [isUserHandler] at hu
      | removeSignalListener s m => simp [isUserHandler] at hu
    obtain ⟨w2, hrunEq, htr2, hget2, hnow2, hlen2, hsig2⟩ := hrun
    have hget2c : getNode w2 c = some { nd with handlers := some (rest ++ [.selfDispose c]) } := by
      rw [hget2]; exact hget1
    have hview2 : viewErr w2 c = ov := by
      rw [viewErr_of_get hget2c]
      rw [viewErr_of_get hget] at hview
      exact hview
    obtain ⟨w', hfire, htr', hother, hc', hq', hnow', hlen', hsig'⟩ :=
      ih f w2 c q { nd with handlers := some (rest ++ [.selfDispose c]) } err ov
        hget2c rfl hpid hq (fun h2 hm2 => husers h2 (by simp [hm2])) hview2 hfuel1
    refine ⟨w', ?_, ?_, ?_, ?_, ?_, ?_, ?_, ?_⟩
    · simp only [fireEvent, hget, hh, List.cons_append]
      rw [hrunEq]
      simp only [hfire]
      cases h <;> simp_all [thrownOf, isUserHandler]
    · rw [htr', htr2]
      simp
    · intro m hmc hmq
      rw [hother m hmc hmq, hget2, getNode_updNode_ne hmc]
    · rw [hc']
    · rw [hq', hget2, getNode_updNode_ne hq]
    · omega
    · omega
    · rw [hsig', hsig2]
  
end StdCtx

namespace StdCtx

theorem registerHandlers_get_self {n : Nat} :
    ∀ (hs : List Handler) (w : World) (nd : Node) (l : List Handler),
    getNode w n = some nd → nd.handlers = some l →
    getNode (registerHandlers w n hs) n =
      some { nd with handlers := some (hs.reverse ++ l) } := by
  intro hs
  induction hs with
  | nil =>
    intro w nd l hget hh
    simp only [registerHandlers, List.foldl_nil, List.reverse_nil, List.nil_append]
    rw [← hh]
    exact hget
  | cons h hs ih =>
    intro w nd l hget hh
    have h1 : registerHandlers w n (h :: hs) = registerHandlers (onDidCancel w n h) n hs := rfl
    have h2 := getNode_onDidCancel_self (h := h) hget
    rw [hh] at h2
    rw [h1, ih (onDidCancel w n h) _ (h :: l) (by simpa using h2) rfl]
    simp

theorem registerHandlers_get_ne {n m : Nat} (hm : m ≠ n) :
    ∀ (hs : List Handler) (w : World),
    getNode (registerHandlers w n hs) m = getNode w m := by
  intro hs
  induction hs with
  | nil => intro w; rfl
  | cons h hs ih =>
    intro w
    have h1 : registerHandlers w n (h :: hs) = registerHandlers (onDidCancel w n h) n hs := rfl
    rw [h1, ih, getNode_onDidCancel_ne hm]

theorem registerHandlers_now (n : Nat) : ∀ (hs : List Handler) (w : World),
    (registerHandlers w n hs).now = w.now := by
  intro hs
  induction hs with
  | nil => intro w; rfl
  | cons h hs ih => intro w; rw [show registerHandlers w n (h :: hs) = registerHandlers (onDidCancel w n h) n hs from rfl, ih]; simp

theorem registerHandlers_trace (n : Nat) : ∀ (hs : List Handler) (w : World),
    (registerHandlers w n hs).trace = w.trace := by
  intro hs
  induction hs with
  | nil => intro w; rfl
  | cons h hs ih => intro w; rw [show registerHandlers w n (h :: hs) = registerHandlers (onDidCancel w n h) n hs from rfl, ih]; simp

theorem registerHandlers_signals (n : Nat) : ∀ (hs : List Handler) (w : World),
    (registerHandlers w n hs).signals = w.signals := by
  intro hs
  induction hs with
  | nil => intro w; rfl
  | cons h hs ih => intro w; rw [show registerHandlers w n (h :: hs) = registerHandlers (onDidCancel w n h) n hs from rfl, ih]; simp

theorem registerHandlers_length (n : Nat) : ∀ (hs : List Handler) (w : World),
    (registerHandlers w n hs).nodes.length = w.nodes.length := by
  intro hs
  induction hs with
  | nil => intro w; rfl
  | cons h hs ih => intro w; rw [show registerHandlers w n (h :: hs) = registerHandlers (onDidCancel w n h) n hs from rfl, ih]; simp

theorem checkCancellationState_eq {w : World} {n : Nat} {nd : Node}
    (hget : getNode w n = some nd) :
    checkCancellationState w n = match nd.variant with
      | .withDeadline t _ =>
        if t ≤ w.now then some (.deadlineExceeded "Deadline exceeded") else none
      | _ => none := by
  unfold checkCancellationState
  rw [hget]

theorem checkCancellationState_congr {w' w : World} {n : Nat}
    (h : (getNode w' n).map (·.variant) = (getNode w n).map (·.variant))
    (hnow : w'.now = w.now) :
    checkCancellationState w' n = checkCancellationState w n := by
  cases hg : getNode w n with
  | none =>
    have hg' : getNode w' n = none := by
      rw [hg] at h
      cases hg2 : getNode w' n with
      | none => rfl
      | some nd' => rw [hg2] at h; simp at h
    unfold checkCancellationState
    rw [hg, hg']
  | some nd =>
    rw [hg] at h
    cases hg2 : getNode w' n with
    | none => rw [hg2] at h; simp at h
    | some nd' =>
      rw [hg2] at h
      simp only [Option.map_some', Option.some_inj] at h
      rw [checkCancellationState_eq hg2, checkCancellationState_eq hg, h, hnow]

end StdCtx

namespace StdCtx

set_option maxHeartbeats 1000000 in
/-- C4: registering user handlers via `onDidCancel` on a freshly derived
child and cancelling it through its controller invokes the handlers in strict
reverse order of registration, each exactly once, with the cancellation error
(a `CancellationError` wrapping the supplied reason): registering tags
`t₁, …, tₖ` in that order appends trace events for `tₖ, …, t₁`.  The broadcast
throws nothing. -/
theorem onDidCancel_fires_in_reverse_order
    (w : World) (p : Nat) (ts : List Nat) (r : Option Nat) (fuel : Nat)
    (hp : p < w.nodes.length)
    (hpcheck : checkCancellationState w p = none)
    (hfuel : ts.length + 6 ≤ fuel) :
    (cancelViaController fuel
        (registerHandlers (withCancel w p).1 (withCancel w p).2 (ts.map .user))
        (withCancel w p).2 r).2 = []
    ∧ (cancelViaController fuel
        (registerHandlers (withCancel w p).1 (withCancel w p).2 (ts.map .user))
        (withCancel w p).2 r).1.trace
      = w.trace ++ ts.reverse.map (fun t => .ran (withCancel w p).2 t (.cancellation r)) := by
  have hpc : p ≠ w.nodes.length := Nat.ne_of_lt hp
  obtain ⟨pnd, hpnd⟩ := getNode_of_lt hp
  have hc0 : getNode (withCancel w p).1 (withCancel w p).2 =
      some { parentId := some p, baseDeadline := (getNode w p).bind (·.baseDeadline),
             variant := .plain, cancellationReason := none,
             handlers := some [.selfDispose w.nodes.length], timerArmed := false } := by
    rw [withCancel_def, newChildNode_id]
    exact newChildNode_get_child hp
  have hc2 : getNode (registerHandlers (withCancel w p).1 (withCancel w p).2 (ts.map .user))
      (withCancel w p).2 =
      some { parentId := some p, baseDeadline := (getNode w p).bind (·.baseDeadline),
             variant := .plain, cancellationReason := none,
             handlers := some ((ts.map .user).reverse ++ [.selfDispose w.nodes.length]),
             timerArmed := false } := by
    exact registerHandlers_get_self (ts.map .user) _ _ _ hc0 rfl
  have hnow2 : (registerHandlers (withCancel w p).1 (withCancel w p).2 (ts.map .user)).now = w.now := by
    rw [registerHandlers_now, withCancel_def, newChildNode_now]
  have htr2 : (registerHandlers (withCancel w p).1 (withCancel w p).2 (ts.map .user)).trace = w.trace := by
    rw [registerHandlers_trace, withCancel_def, newChildNode_trace]
  have hpc' : p ≠ (withCancel w p).2 := by
    rw [withCancel_def, newChildNode_id]; exact hpc
  have hp2 : getNode (registerHandlers (withCancel w p).1 (withCancel w p).2 (ts.map .user)) p
      = some { pnd with handlers := some (.cascade w.nodes.length :: pnd.handlers.getD []) } := by
    rw [registerHandlers_get_ne hpc', withCancel_def]
    exact newChildNode_get_parent hpnd
  have hpcheck2 : checkCancellationState
      (registerHandlers (withCancel w p).1 (withCancel w p).2 (ts.map .user)) p = none := by
    rw [checkCancellationState_congr (w := w) _ hnow2]
    · exact hpcheck
    · rw [hp2, hpnd]; rfl
  have hselfcheck : checkCancellationState
      (registerHandlers (withCancel w p).1 (withCancel w p).2 (ts.map .user))
      (withCancel w p).2 = none := by
    rw [checkCancellationState_eq hc2]
  have hq : getCancellationErrorM fuel
      (registerHandlers (withCancel w p).1 (withCancel w p).2 (ts.map .user))
      (withCancel w p).2
      = ((registerHandlers (withCancel w p).1 (withCancel w p).2 (ts.map .user)), [], none) := by
    simp [getCancellationErrorM, hc2, hselfcheck, hpcheck2]
  obtain ⟨f, rfl⟩ : ∃ f, fuel = f + 1 := ⟨fuel - 1, by omega⟩
  have hget3 : getNode (updNode
      (registerHandlers (withCancel w p).1 (withCancel w p).2 (ts.map .user))
      (withCancel w p).2
      (fun nd => { nd with cancellationReason := some (.cancellation r) }))
      (withCancel w p).2 =
      some { parentId := some p, baseDeadline := (getNode w p).bind (·.baseDeadline),
             variant := .plain, cancellationReason := some (.cancellation r),
             handlers := some ((ts.map .user).reverse ++ [.selfDispose w.nodes.length]),
             timerArmed := false } := by
    rw [getNode_updNode_self hc2]
  obtain ⟨w4, hfire, htrace4, hother4, hc4, hp4, hnow4, hlen4, hsig4⟩ :=
    fireEvent_users ((ts.map .user).reverse) f _ (withCancel w p).2 p _ (.cancellation r)
      (some (.cancellation r)) hget3 rfl rfl
      (by rw [withCancel_def, newChildNode_id]; exact hpc)
      (by intro h hm
          simp only [List.mem_reverse, List.mem_map] at hm
          obtain ⟨t, _, rfl⟩ := hm
          rfl)
      (by rw [viewErr_of_get hget3])
      (by simp only [List.length_reverse, List.length_map]; omega)
  have hthrown : ((ts.map Handler.user).reverse).filterMap thrownOf = [] := by
    apply List.filterMap_eq_nil.mpr
    intro h hm
    simp only [List.mem_reverse, List.mem_map] at hm
    obtain ⟨t, _, rfl⟩ := hm
    rfl
  rw [hthrown] at hfire
  have hcan : cancelCtx (f + 1)
      (registerHandlers (withCancel w p).1 (withCancel w p).2 (ts.map .user))
      (withCancel w p).2 (.cancellation r)
      = (updNode w4 (withCancel w p).2 (fun nd => { nd with handlers := none }), []) := by
    simp only [cancelCtx, hc2]
    simp only [Option.isSome_none, Bool.false_eq_true, if_false, hfire]
    simp
  have hfinal : cancelViaController (f + 1)
      (registerHandlers (withCancel w p).1 (withCancel w p).2 (ts.map .user))
      (withCancel w p).2 r
      = (updNode w4 (withCancel w p).2 (fun nd => { nd with handlers := none }), []) := by
    simp only [cancelViaController, hq, hcan]
    simp
  rw [hfinal]
  refine ⟨rfl, ?_⟩
  simp only [updNode_trace, htrace4, updNode_trace, htr2]
  congr 1
  simp [userEv, Function.comp]

end StdCtx

namespace StdCtx

/-- Witness for C4 at a concrete input: registering tags 1, 2, 3 then
cancelling fires 3, 2, 1. -/
theorem onDidCancel_fires_in_reverse_order_witness :
    ((0 : Nat) < ((createRootContext ({} : World)).1).nodes.length
      ∧ checkCancellationState (createRootContext ({} : World)).1 0 = none
      ∧ ([1, 2, 3] : List Nat).length + 6 ≤ 9)
    ∧ (cancelViaController 9
        (registerHandlers (withCancel (createRootContext ({} : World)).1 0).1
          (withCancel (createRootContext ({} : World)).1 0).2 ([1, 2, 3].map .user))
        (withCancel (createRootContext ({} : World)).1 0).2 (some 9)).1.trace
      = [.ran 1 3 (.cancellation (some 9)), .ran 1 2 (.cancellation (some 9)),
         .ran 1 1 (.cancellation (some 9))] := by
  have H := onDidCancel_fires_in_reverse_order (createRootContext ({} : World)).1 0
    [1, 2, 3] (some 9) 9 (by decide) (by decide) (by decide)
  refine ⟨⟨by decide, by decide, by decide⟩, ?_⟩
  rw [H.2]
  rfl

end StdCtx

namespace StdCtx

set_option maxHeartbeats 1000000 in
/-- C10 (amended): cancelling a freshly derived plain child through its
controller records the `CancellationError` in the node's state before any
handler runs — every probe handler fired by the broadcast observes
`isCancelled() = true` and `getCancellationError()` equal to the delivered
error; the errors thrown by handlers are collected and returned (as the
`AggregateError` contents) to the cancelling caller, in firing order; and
regardless of whether handlers threw, the node remains cancelled with that
same error (the already-cancelled node variant is excluded here: its
`getCancellationError()` keeps answering the construction-time error even
while its handlers receive the delivered one — see the counterexample). -/
theorem cancellation_recorded_before_broadcast
    (w : World) (p : Nat) (hs : List Handler) (r : Option Nat) (fuel : Nat)
    (hp : p < w.nodes.length)
    (hpcheck : checkCancellationState w p = none)
    (husers : ∀ h ∈ hs, isUserHandler h = true)
    (hfuel : hs.length + 6 ≤ fuel) :
    (cancelViaController fuel
        (registerHandlers (withCancel w p).1 (withCancel w p).2 hs)
        (withCancel w p).2 r).2 = hs.reverse.filterMap thrownOf
    ∧ (cancelViaController fuel
        (registerHandlers (withCancel w p).1 (withCancel w p).2 hs)
        (withCancel w p).2 r).1.trace
      = w.trace ++ hs.reverse.map
          (userEv (withCancel w p).2 (.cancellation r) (some (.cancellation r)))
    ∧ viewErr (cancelViaController fuel
        (registerHandlers (withCancel w p).1 (withCancel w p).2 hs)
        (withCancel w p).2 r).1 (withCancel w p).2 = some (.cancellation r) := by
  have hpc : p ≠ w.nodes.length := Nat.ne_of_lt hp
  obtain ⟨pnd, hpnd⟩ := getNode_of_lt hp
  have hc0 : getNode (withCancel w p).1 (withCancel w p).2 =
      some { parentId := some p, baseDeadline := (getNode w p).bind (·.baseDeadline),
             variant := .plain, cancellationReason := none,
             handlers := some [.selfDispose w.nodes.length], timerArmed := false } := by
    rw [withCancel_def, newChildNode_id]
    exact newChildNode_get_child hp
  have hc2 : getNode (registerHandlers (withCancel w p).1 (withCancel w p).2 hs)
      (withCancel w p).2 =
      some { parentId := some p, baseDeadline := (getNode w p).bind (·.baseDeadline),
             variant := .plain, cancellationReason := none,
             handlers := some (hs.reverse ++ [.selfDispose w.nodes.length]),
             timerArmed := false } := by
    exact registerHandlers_get_self hs _ _ _ hc0 rfl
  have hnow2 : (registerHandlers (withCancel w p).1 (withCancel w p).2 hs).now = w.now := by
    rw [registerHandlers_now, withCancel_def, newChildNode_now]
  have htr2 : (registerHandlers (withCancel w p).1 (withCancel w p).2 hs).trace = w.trace := by
    rw [registerHandlers_trace, withCancel_def, newChildNode_trace]
  have hpc' : p ≠ (withCancel w p).2 := by
    rw [withCancel_def, newChildNode_id]; exact hpc
  have hp2 : getNode (registerHandlers (withCancel w p).1 (withCancel w p).2 hs) p
      = some { pnd with handlers := some (.cascade w.nodes.length :: pnd.handlers.getD []) } := by
    rw [registerHandlers_get_ne hpc', withCancel_def]
    exact newChildNode_get_parent hpnd
  have hpcheck2 : checkCancellationState
      (registerHandlers (withCancel w p).1 (withCancel w p).2 hs) p = none := by
    rw [checkCancellationState_congr (w := w) _ hnow2]
    · exact hpcheck
    · rw [hp2, hpnd]; rfl
  have hselfcheck : checkCancellationState
      (registerHandlers (withCancel w p).1 (withCancel w p).2 hs)
      (withCancel w p).2 = none := by
    rw [checkCancellationState_eq hc2]
  have hq : getCancellationErrorM fuel
      (registerHandlers (withCancel w p).1 (withCancel w p).2 hs)
      (withCancel w p).2
      = ((registerHandlers (withCancel w p).1 (withCancel w p).2 hs), [], none) := by
    simp [getCancellationErrorM, hc2, hselfcheck, hpcheck2]
  obtain ⟨f, rfl⟩ : ∃ f, fuel = f + 1 := ⟨fuel - 1, by omega⟩
  have hget3 : getNode (updNode
      (registerHandlers (withCancel w p).1 (withCancel w p).2 hs)
      (withCancel w p).2
      (fun nd => { nd with cancellationReason := some (.cancellation r) }))
      (withCancel w p).2 =
      some { parentId := some p, baseDeadline := (getNode w p).bind (·.baseDeadline),
             variant := .plain, cancellationReason := some (.cancellation r),
             handlers := some (hs.reverse ++ [.selfDispose w.nodes.length]),
             timerArmed := false } := by
    rw [getNode_updNode_self hc2]
  obtain ⟨w4, hfire, htrace4, hother4, hc4, hp4, hnow4, hlen4, hsig4⟩ :=
    fireEvent_users hs.reverse f _ (withCancel w p).2 p _ (.cancellation r)
      (some (.cancellation r)) hget3 rfl rfl hpc'
      (by intro h hm; exact husers h (List.mem_reverse.mp hm))
      (by rw [viewErr_of_get hget3])
      (by simp only [List.length_reverse]; omega)
  by_cases hemp : hs.reverse.filterMap thrownOf = []
  · have hcan : cancelCtx (f + 1)
        (registerHandlers (withCancel w p).1 (withCancel w p).2 hs)
        (withCancel w p).2 (.cancellation r)
        = (updNode w4 (withCancel w p).2 (fun nd => { nd with handlers := none }), []) := by
      simp only [cancelCtx, hc2]
      simp only [Option.isSome_none, Bool.false_eq_true, if_false, hfire, hemp]
      simp
    have hfinal : cancelViaController (f + 1)
        (registerHandlers (withCancel w p).1 (withCancel w p).2 hs)
        (withCancel w p).2 r
        = (updNode w4 (withCancel w p).2 (fun nd => { nd with handlers := none }), []) := by
      simp only [cancelViaController, hq, hcan]
      simp
    rw [hfinal]
    refine ⟨by rw [hemp], ?_, ?_⟩
    · simp only [updNode_trace, htrace4, updNode_trace, htr2]
    · rw [viewErr_of_get (getNode_updNode_self hc4)]
  · have hcan : cancelCtx (f + 1)
        (registerHandlers (withCancel w p).1 (withCancel w p).2 hs)
        (withCancel w p).2 (.cancellation r)
        = (w4, hs.reverse.filterMap thrownOf) := by
      have hbool : (hs.reverse.filterMap thrownOf).isEmpty = false := by
        cases hlst : hs.reverse.filterMap thrownOf with
        | nil => exact absurd hlst hemp
        | cons a l => rfl
      simp only [cancelCtx, hc2]
      simp only [Option.isSome_none, Bool.false_eq_true, if_false, hfire]
      simp only [hbool, Bool.false_eq_true, if_false]
    have hfinal : cancelViaController (f + 1)
        (registerHandlers (withCancel w p).1 (withCancel w p).2 hs)
        (withCancel w p).2 r
        = (w4, hs.reverse.filterMap thrownOf) := by
      simp only [cancelViaController, hq, hcan]
      simp
    rw [hfinal]
    refine ⟨rfl, ?_, ?_⟩
    · rw [htrace4]
      simp only [updNode_trace, htr2]
    · rw [viewErr_of_get hc4]

end StdCtx

namespace StdCtx

/-- Witness for the amended C10 at a concrete input: a probe, a throwing
handler, and a plain handler. -/
theorem cancellation_recorded_before_broadcast_witness :
    ((0 : Nat) < ((createRootContext ({} : World)).1).nodes.length
      ∧ checkCancellationState (createRootContext ({} : World)).1 0 = none
      ∧ (∀ h ∈ ([.userProbe 1, .userThrow 2, .user 3] : List Handler),
          isUserHandler h = true)
      ∧ ([.userProbe 1, .userThrow 2, .user 3] : List Handler).length + 6 ≤ 9)
    ∧ viewErr (cancelViaController 9
        (registerHandlers (withCancel (createRootContext ({} : World)).1 0).1
          (withCancel (createRootContext ({} : World)).1 0).2
          [.userProbe 1, .userThrow 2, .user 3])
        (withCancel (createRootContext ({} : World)).1 0).2 (some 1)).1
        (withCancel (createRootContext ({} : World)).1 0).2
      = some (.cancellation (some 1)) := by
  have H := cancellation_recorded_before_broadcast (createRootContext ({} : World)).1 0
    [.userProbe 1, .userThrow 2, .user 3] (some 1) 9
    (by decide) (by decide) (by decide) (by decide)
  exact ⟨⟨by decide, by decide, by decide, by decide⟩, H.2.2⟩

/-- Counterexample to C10 as stated: a handler registered on an
already-cancelled (`CancelledContextImpl`) child observes
`getCancellationError() = DeadlineExceededError` (the construction-time
error) while the error delivered to it by the ancestor's cancellation is a
`CancellationError` — so "getCancellationError() returns the delivered
error" fails on that node variant. -/
theorem cancellation_probe_on_precancelled_counterexample :
    (cancelViaController 20
      (onDidCancel
        (withDeadline (withCancel (createRootContext ({} : World)).1 0).1 1 (-5) none).1
        2 (.userProbe 4))
      1 (some 7)).1.trace
      = [.probed 2 4 true (some (.deadlineExceeded "Deadline exceeded"))]
    ∧ (.deadlineExceeded "Deadline exceeded" : ContextError) ≠ .cancellation (some 7) := by
  exact ⟨rfl, by decide⟩

end StdCtx

namespace StdCtx

theorem removeListener_nodes (w : World) (s n : Nat) :
    (removeListener w s n).nodes = w.nodes := by
  unfold removeListener
  cases w.signals.lookup s <;> rfl

theorem removeListener_now (w : World) (s n : Nat) :
    (removeListener w s n).now = w.now := by
  unfold removeListener
  cases w.signals.lookup s <;> rfl

theorem removeListener_trace (w : World) (s n : Nat) :
    (removeListener w s n).trace = w.trace := by
  unfold removeListener
  cases w.signals.lookup s <;> rfl

theorem getNode_removeListener (w : World) (s n m : Nat) :
    getNode (removeListener w s n) m = getNode w m := by
  unfold getNode
  rw [removeListener_nodes]

set_option maxHeartbeats 1000000 in
/-- Firing a callback stack holding only the internal timer-clearing /
listener-removing subscriptions above the self-dispose one: nothing is
thrown, no trace events appear, and the node ends up self-disposed. -/
theorem fireEvent_benign (bs : List Handler) :
    ∀ (fuel : Nat) (w : World) (c q : Nat) (nd : Node) (err : ContextError),
    getNode w c = some nd →
    nd.handlers = some (bs ++ [.selfDispose c]) →
    nd.parentId = some q →
    q ≠ c →
    (∀ h ∈ bs, Benign c h) →
    bs.length + 3 ≤ fuel →
    ∃ w', fireEvent fuel w c err = (w', [])
      ∧ (∀ m, m ≠ c → m ≠ q → getNode w' m = getNode w m)
      ∧ getNode w' c = some { nd with handlers := none, timerArmed := false }
      ∧ getNode w' q = (getNode w q).map
          (fun pnd => { pnd with handlers := pnd.handlers.map (·.erase (.cascade c)) })
      ∧ w'.now = w.now ∧ w'.trace = w.trace ∧ w'.nodes.length = w.nodes.length := by
  induction bs with
  | nil =>
    intro fuel w c q nd err hget hh hpid hq _ hfuel
    obtain ⟨f, rfl⟩ : ∃ f, fuel = f + 3 := ⟨fuel - 3, by omega⟩
    have hget1 : getNode (updNode w c fun nd => { nd with handlers := some [] }) c
        = some { nd with handlers := some [] } := getNode_updNode_self hget
    have hpid1 : ({ nd with handlers := some ([] : List Handler) } : Node).parentId = some q := hpid
    refine ⟨disposeNode (updNode w c fun nd => { nd with handlers := some [] }) c,
      ?_, ?_, ?_, ?_, ?_, ?_, ?_⟩
    · simp only [fireEvent, hget, hh, List.nil_append]
      simp only [runHandler]
      have hget2 := disposeNode_get_self hget1 hpid1 hq
      simp only [fireEvent, hget2]
      rfl
    · intro m hmc hmq
      rw [disposeNode_get_other hget1 hpid1 hmc hmq, getNode_updNode_ne hmc]
    · rw [disposeNode_get_self hget1 hpid1 hq]
    · rw [disposeNode_get_parent hget1 hpid1 hq, getNode_updNode_ne hq]
    · rw [disposeNode_now]; simp
    · rw [disposeNode_trace]; simp
    · rw [disposeNode_length]; simp
  | cons h rest ih =>
    intro fuel w c q nd err hget hh hpid hq hben hfuel
    obtain ⟨f, rfl⟩ : ∃ f, fuel = f + 1 := ⟨fuel - 1, by omega⟩
    have hget1 : getNode (updNode w c fun nd => { nd with handlers := some (rest ++ [.selfDispose c]) }) c
        = some { nd with handlers := some (rest ++ [.selfDispose c]) } := getNode_updNode_self hget
    have hfuel1 : rest.length + 3 ≤ f := by
      simp only [List.length_cons] at hfuel; omega
    have hb := hben h (by simp)
    obtain ⟨s, hb⟩ := hb
    have hrest : ∀ h2 ∈ rest, Benign c h2 := fun h2 hm2 => hben h2 (by simp [hm2])
    cases hb with
    | inl hb =>
      subst hb
      have hrun : runHandler f
          (updNode w c fun nd => { nd with handlers := some (rest ++ [.selfDispose c]) }) c
          (.clearTimer c) err
          = (updNode (updNode w c fun nd => { nd with handlers := some (rest ++ [.selfDispose c]) }) c
              (fun nd => { nd with timerArmed := false }), []) := by
        obtain ⟨f', rfl⟩ : ∃ f', f = f' + 1 := ⟨f - 1, by omega⟩
        simp [runHandler]
      have hget2 : getNode (updNode (updNode w c fun nd => { nd with handlers := some (rest ++ [.selfDispose c]) }) c
          (fun nd => { nd with timerArmed := false })) c
          = some { nd with handlers := some (rest ++ [.selfDispose c]), timerArmed := false } := by
        rw [getNode_updNode_self hget1]
      obtain ⟨w', hfire, hother, hc', hq', hnow', htr', hlen'⟩ :=
        ih f _ c q _ err hget2 rfl hpid hq hrest hfuel1
      refine ⟨w', ?_, ?_, ?_, ?_, ?_, ?_, ?_⟩
      · simp only [fireEvent, hget, hh, List.cons_append]
        rw [hrun]
        simp only [hfire]
        simp
      · intro m hmc hmq
        rw [hother m hmc hmq, getNode_updNode_ne hmc, getNode_updNode_ne hmc]
      · rw [hc']
      · rw [hq', getNode_updNode_ne hq, getNode_updNode_ne hq]
      · simp only [hnow', updNode_now]
      · simp only [htr', updNode_trace]
      · simp only [hlen', updNode_length]
    | inr hb =>
      subst hb
      have hrun : runHandler f
          (updNode w c fun nd => { nd with handlers := some (rest ++ [.selfDispose c]) }) c
          (.removeSignalListener s c) err
          = (removeListener (updNode w c fun nd => { nd with handlers := some (rest ++ [.selfDispose c]) }) s c, []) := by
        obtain ⟨f', rfl⟩ : ∃ f', f = f' + 1 := ⟨f - 1, by omega⟩
        simp [runHandler]
      have hget2 : getNode (removeListener (updNode w c fun nd => { nd with handlers := some (rest ++ [.selfDispose c]) }) s c) c
          = some { nd with handlers := some (rest ++ [.selfDispose c]) } := by
        rw [getNode_removeListener]
        exact hget1
      obtain ⟨w', hfire, hother, hc', hq', hnow', htr', hlen'⟩ :=
        ih f _ c q _ err hget2 rfl hpid hq hrest hfuel1
      refine ⟨w', ?_, ?_, ?_, ?_, ?_, ?_, ?_⟩
      · simp only [fireEvent, hget, hh, List.cons_append]
        rw [hrun]
        simp only [hfire]
        simp
      · intro m hmc hmq
        rw [hother m hmc hmq, getNode_removeListener, getNode_updNode_ne hmc]
      · rw [hc']
      · rw [hq', getNode_removeListener, getNode_updNode_ne hq]
      · simp only [hnow', removeListener_now, updNode_now]
      · simp only [htr', removeListener_trace, updNode_trace]
      · simp only [hlen']
        unfold getNode at *
        rw [removeListener_nodes]
        simp

end StdCtx

namespace StdCtx

theorem setSignal_nodes (w : World) (s : Nat) (st : SignalState) :
    (setSignal w s st).nodes = w.nodes := rfl

theorem setSignal_now (w : World) (s : Nat) (st : SignalState) :
    (setSignal w s st).now = w.now := rfl

theorem setSignal_trace (w : World) (s : Nat) (st : SignalState) :
    (setSignal w s st).trace = w.trace := rfl

theorem getNode_setSignal (w : World) (s : Nat) (st : SignalState) (m : Nat) :
    getNode (setSignal w s st) m = getNode w m := rfl

theorem getSignal_setSignal_self (w : World) (s : Nat) (st : SignalState) :
    getSignal (setSignal w s st) s = st := by
  unfold getSignal setSignal
  simp [List.lookup]

theorem withAbortSignal_def (w : World) (p s : Nat) :
    withAbortSignal w p s =
      (setSignal
          (onDidCancel (withCancel w p).1 (withCancel w p).2
            (.removeSignalListener s (withCancel w p).2)) s
          { getSignal
              (onDidCancel (withCancel w p).1 (withCancel w p).2
                (.removeSignalListener s (withCancel w p).2)) s with
            listeners :=
              (getSignal
                (onDidCancel (withCancel w p).1 (withCancel w p).2
                  (.removeSignalListener s (withCancel w p).2)) s).listeners
              ++ [(withCancel w p).2] },
        (withCancel w p).2) := rfl

end StdCtx

namespace StdCtx

set_option maxHeartbeats 1000000 in
/-- C7 (amended): for a child derived with `withAbortSignal` from a signal that
is not yet aborted and has no other listener, aborting the signal with reason
`r` cancels the child with a `CancellationError` whose `cause` is *exactly* the
signal's reason — in particular, when the signal carries no reason the cause is
absent (there is no fallback to a generic abort error value, since the listener
runs `ref.cancel(signal.reason!)` verbatim); the broadcast throws nothing and
the parent's cancellation answer is unchanged. -/
theorem withAbortSignal_abort_cancels_with_exact_signal_reason
    (w : World) (p s : Nat) (r : Option Nat) (fuel : Nat)
    (hp : p < w.nodes.length)
    (hpcheck : checkCancellationState w p = none)
    (hsig : w.signals.lookup s = none)
    (hfuel : 5 ≤ fuel) :
    (abortSignal fuel (withAbortSignal w p s).1 s r).2 = []
    ∧ viewErr (abortSignal fuel (withAbortSignal w p s).1 s r).1
        (withAbortSignal w p s).2 = some (.cancellation r)
    ∧ viewErr (abortSignal fuel (withAbortSignal w p s).1 s r).1 p = viewErr w p := by
  have hpc : p ≠ w.nodes.length := Nat.ne_of_lt hp
  obtain ⟨pnd, hpnd⟩ := getNode_of_lt hp
  have hpc' : p ≠ (withCancel w p).2 := by
    rw [withCancel_def, newChildNode_id]; exact hpc
  have hc0 : getNode (withCancel w p).1 (withCancel w p).2 =
      some { parentId := some p, baseDeadline := (getNode w p).bind (·.baseDeadline),
             variant := .plain, cancellationReason := none,
             handlers := some [.selfDispose w.nodes.length], timerArmed := false } := by
    rw [withCancel_def, newChildNode_id]
    exact newChildNode_get_child hp
  have hst : getSignal
      (onDidCancel (withCancel w p).1 (withCancel w p).2
        (.removeSignalListener s (withCancel w p).2)) s = {} := by
    unfold getSignal
    rw [onDidCancel_signals, withCancel_def, newChildNode_signals, hsig]
    rfl
  have hW1 : (withAbortSignal w p s).1 =
      setSignal
        (onDidCancel (withCancel w p).1 (withCancel w p).2
          (.removeSignalListener s (withCancel w p).2)) s
        { aborted := false, reason := none, listeners := [(withCancel w p).2] } := by
    rw [withAbortSignal_def, hst]
    rfl
  have h2 : (withAbortSignal w p s).2 = (withCancel w p).2 := by
    rw [withAbortSignal_def]
  rw [hW1, h2]
  have hsigW1 : getSignal
      (setSignal
        (onDidCancel (withCancel w p).1 (withCancel w p).2
          (.removeSignalListener s (withCancel w p).2)) s
        { aborted := false, reason := none, listeners := [(withCancel w p).2] }) s
      = { aborted := false, reason := none, listeners := [(withCancel w p).2] } :=
    getSignal_setSignal_self _ s _
  have hsig2 : getSignal
      (setSignal
        (setSignal
          (onDidCancel (withCancel w p).1 (withCancel w p).2
            (.removeSignalListener s (withCancel w p).2)) s
          { aborted := false, reason := none, listeners := [(withCancel w p).2] }) s
        { aborted := true, reason := r, listeners := [(withCancel w p).2] }) s
      = { aborted := true, reason := r, listeners := [(withCancel w p).2] } :=
    getSignal_setSignal_self _ s _
  have hc2 : getNode
      (setSignal
        (setSignal
          (onDidCancel (withCancel w p).1 (withCancel w p).2
            (.removeSignalListener s (withCancel w p).2)) s
          { aborted := false, reason := none, listeners := [(withCancel w p).2] }) s
        { aborted := true, reason := r, listeners := [(withCancel w p).2] })
      (withCancel w p).2 =
      some { parentId := some p, baseDeadline := (getNode w p).bind (·.baseDeadline),
             variant := .plain, cancellationReason := none,
             handlers := some [.removeSignalListener s (withCancel w p).2,
                               .selfDispose w.nodes.length],
             timerArmed := false } := by
    rw [getNode_setSignal, getNode_setSignal]
    exact getNode_onDidCancel_self hc0
  have hp2 : getNode
      (setSignal
        (setSignal
          (onDidCancel (withCancel w p).1 (withCancel w p).2
            (.removeSignalListener s (withCancel w p).2)) s
          { aborted := false, reason := none, listeners := [(withCancel w p).2] }) s
        { aborted := true, reason := r, listeners := [(withCancel w p).2] }) p =
      some { pnd with handlers := some (.cascade w.nodes.length :: pnd.handlers.getD []) } := by
    rw [getNode_setSignal, getNode_setSignal, getNode_onDidCancel_ne hpc', withCancel_def]
    exact newChildNode_get_parent hpnd
  have hnow2 : (setSignal
      (setSignal
        (onDidCancel (withCancel w p).1 (withCancel w p).2
          (.removeSignalListener s (withCancel w p).2)) s
        { aborted := false, reason := none, listeners := [(withCancel w p).2] }) s
      { aborted := true, reason := r, listeners := [(withCancel w p).2] }).now = w.now := by
    rw [setSignal_now, setSignal_now, onDidCancel_now, withCancel_def, newChildNode_now]
  have hpcheck2 : checkCancellationState
      (setSignal
        (setSignal
          (onDidCancel (withCancel w p).1 (withCancel w p).2
            (.removeSignalListener s (withCancel w p).2)) s
          { aborted := false, reason := none, listeners := [(withCancel w p).2] }) s
        { aborted := true, reason := r, listeners := [(withCancel w p).2] }) p = none := by
    rw [checkCancellationState_congr (w := w) _ hnow2]
    · exact hpcheck
    · rw [hp2, hpnd]; rfl
  have hselfcheck : checkCancellationState
      (setSignal
        (setSignal
          (onDidCancel (withCancel w p).1 (withCancel w p).2
            (.removeSignalListener s (withCancel w p).2)) s
          { aborted := false, reason := none, listeners := [(withCancel w p).2] }) s
        { aborted := true, reason := r, listeners := [(withCancel w p).2] })
      (withCancel w p).2 = none := by
    rw [checkCancellationState_eq hc2]
  have hq : getCancellationErrorM fuel
      (setSignal
        (setSignal
          (onDidCancel (withCancel w p).1 (withCancel w p).2
            (.removeSignalListener s (withCancel w p).2)) s
          { aborted := false, reason := none, listeners := [(withCancel w p).2] }) s
        { aborted := true, reason := r, listeners := [(withCancel w p).2] })
      (withCancel w p).2
      = ((setSignal
          (setSignal
            (onDidCancel (withCancel w p).1 (withCancel w p).2
              (.removeSignalListener s (withCancel w p).2)) s
            { aborted := false, reason := none, listeners := [(withCancel w p).2] }) s
          { aborted := true, reason := r, listeners := [(withCancel w p).2] }), [], none) := by
    simp [getCancellationErrorM, hc2, hselfcheck, hpcheck2]
  obtain ⟨f, rfl⟩ : ∃ f, fuel = f + 1 := ⟨fuel - 1, by omega⟩
  have hget3 : getNode (updNode
      (setSignal
        (setSignal
          (onDidCancel (withCancel w p).1 (withCancel w p).2
            (.removeSignalListener s (withCancel w p).2)) s
          { aborted := false, reason := none, listeners := [(withCancel w p).2] }) s
        { aborted := true, reason := r, listeners := [(withCancel w p).2] })
      (withCancel w p).2
      (fun nd => { nd with cancellationReason := some (.cancellation r) }))
      (withCancel w p).2 =
      some { parentId := some p, baseDeadline := (getNode w p).bind (·.baseDeadline),
             variant := .plain, cancellationReason := some (.cancellation r),
             handlers := some [.removeSignalListener s (withCancel w p).2,
                               .selfDispose w.nodes.length],
             timerArmed := false } := by
    rw [getNode_updNode_self hc2]
  obtain ⟨w4, hfire, hother4, hc4, hp4, hnow4, htr4, hlen4⟩ :=
    fireEvent_benign [.removeSignalListener s (withCancel w p).2] f _ (withCancel w p).2 p _
      (.cancellation r) hget3 rfl rfl
      (by rw [withCancel_def, newChildNode_id]; exact hpc)
      (by intro h hm
          simp only [List.mem_singleton] at hm
          subst hm
          exact ⟨s, Or.inr rfl⟩)
      (by simp only [List.length_singleton]; omega)
  have hcan : cancelCtx (f + 1)
      (setSignal
        (setSignal
          (onDidCancel (withCancel w p).1 (withCancel w p).2
            (.removeSignalListener s (withCancel w p).2)) s
          { aborted := false, reason := none, listeners := [(withCancel w p).2] }) s
        { aborted := true, reason := r, listeners := [(withCancel w p).2] })
      (withCancel w p).2 (.cancellation r)
      = (updNode w4 (withCancel w p).2 (fun nd => { nd with handlers := none }), []) := by
    simp only [cancelCtx, hc2]
    simp only [Option.isSome_none, Bool.false_eq_true, if_false, hfire]
    simp
  have hfinal : cancelViaController (f + 1)
      (setSignal
        (setSignal
          (onDidCancel (withCancel w p).1 (withCancel w p).2
            (.removeSignalListener s (withCancel w p).2)) s
          { aborted := false, reason := none, listeners := [(withCancel w p).2] }) s
        { aborted := true, reason := r, listeners := [(withCancel w p).2] })
      (withCancel w p).2 r
      = (updNode w4 (withCancel w p).2 (fun nd => { nd with handlers := none }), []) := by
    simp only [cancelViaController, hq, hcan]
    simp
  have habort : abortSignal (f + 1)
      (setSignal
        (onDidCancel (withCancel w p).1 (withCancel w p).2
          (.removeSignalListener s (withCancel w p).2)) s
        { aborted := false, reason := none, listeners := [(withCancel w p).2] }) s r
      = (updNode w4 (withCancel w p).2 (fun nd => { nd with handlers := none }), []) := by
    simp only [abortSignal, hsigW1]
    simp only [runAbortListeners, hsig2, hfinal]
    simp
  rw [habort]
  have hc4' : getNode (updNode w4 (withCancel w p).2 (fun nd => { nd with handlers := none }))
      (withCancel w p).2 =
      some { parentId := some p, baseDeadline := (getNode w p).bind (·.baseDeadline),
             variant := .plain, cancellationReason := some (.cancellation r),
             handlers := none, timerArmed := false } := by
    rw [getNode_updNode_self hc4]
  refine ⟨rfl, ?_, ?_⟩
  · rw [viewErr_of_get hc4']
  · have hp4' : getNode (updNode w4 (withCancel w p).2 (fun nd => { nd with handlers := none })) p
        = some { pnd with handlers :=
            (Option.map (·.erase (Handler.cascade (withCancel w p).2))
              (some (Handler.cascade w.nodes.length :: pnd.handlers.getD []))) } := by
      rw [getNode_updNode_ne hpc', hp4, getNode_updNode_ne hpc', hp2]
      rfl
    rw [viewErr_of_get hp4', viewErr_of_get hpnd]

end StdCtx

namespace StdCtx

/-- Witness for C7 at a concrete input: aborting a fresh signal with reason 3
cancels the derived child with the error `.cancellation (some 3)`. -/
theorem withAbortSignal_abort_cancels_with_exact_signal_reason_witness :
    ((0 : Nat) < ((createRootContext ({} : World)).1).nodes.length
      ∧ checkCancellationState (createRootContext ({} : World)).1 0 = none
      ∧ ((createRootContext ({} : World)).1).signals.lookup 0 = none
      ∧ (5 : Nat) ≤ 5)
    ∧ viewErr
        (abortSignal 5 (withAbortSignal (createRootContext ({} : World)).1 0 0).1 0 (some 3)).1
        (withAbortSignal (createRootContext ({} : World)).1 0 0).2
      = some (.cancellation (some 3)) := by
  refine ⟨⟨by decide, by decide, by decide, by decide⟩, ?_⟩
  exact (withAbortSignal_abort_cancels_with_exact_signal_reason
    (createRootContext ({} : World)).1 0 0 (some 3) 5
    (by decide) (by decide) (by decide) (by decide)).2.1

/-- Counterexample to C7 as stated: aborting the signal with *no* reason
leaves the `cause` of the child's `CancellationError` absent — the listener
runs `ref.cancel(signal.reason!)` with no fallback, so no generic abort error
value ever appears as the cause. -/
theorem withAbortSignal_no_reason_cause_absent_counterexample :
    viewErr
        (abortSignal 5 (withAbortSignal (createRootContext ({} : World)).1 0 0).1 0 none).1
        (withAbortSignal (createRootContext ({} : World)).1 0 0).2
      = some (.cancellation none)
    ∧ ∀ g : Nat, (ContextError.cancellation none) ≠ .cancellation (some g) := by
  refine ⟨rfl, ?_⟩
  intro g
  simp

end StdCtx

namespace StdCtx

theorem updNode_of_get_none {w : World} {n : Nat} {f : Node → Node}
    (hg : getNode w n = none) : updNode w n f = w := by
  unfold getNode at hg
  unfold updNode
  rw [hg]

theorem viewErr_updNode_congr {w : World} {m n : Nat} {f : Node → Node}
    (hf : ∀ nd, (f nd).variant = nd.variant
      ∧ (f nd).cancellationReason = nd.cancellationReason) :
    viewErr (updNode w m f) n = viewErr w n := by
  by_cases hmn : n = m
  · subst hmn
    cases hg : getNode w n with
    | none => rw [updNode_of_get_none hg]
    | some nd =>
      rw [viewErr_of_get (getNode_updNode_self hg), viewErr_of_get hg,
        (hf nd).1, (hf nd).2]
  · unfold viewErr
    rw [getNode_updNode_ne hmn]

theorem viewErr_onDidCancel (w : World) (m : Nat) (h : Handler) (n : Nat) :
    viewErr (onDidCancel w m h) n = viewErr w n := by
  unfold onDidCancel
  exact viewErr_updNode_congr fun nd => ⟨rfl, rfl⟩

theorem viewErr_disposeNode (w : World) (m n : Nat) :
    viewErr (disposeNode w m) n = viewErr w n := by
  cases hg : getNode w m with
  | none => simp only [disposeNode, hg]
  | some nd =>
    cases hp : nd.parentId with
    | none =>
      simp only [disposeNode, hg, hp]
      exact viewErr_updNode_congr fun nd => ⟨rfl, rfl⟩
    | some p =>
      simp only [disposeNode, hg, hp]
      rw [viewErr_updNode_congr (f := fun nd =>
        { nd with handlers := none, timerArmed := false }) (fun nd => ⟨rfl, rfl⟩)]
      exact viewErr_updNode_congr fun nd => ⟨rfl, rfl⟩

theorem viewErr_removeListener (w : World) (s m n : Nat) :
    viewErr (removeListener w s m) n = viewErr w n := by
  unfold viewErr
  rw [getNode_removeListener]

theorem viewErr_setSignal (w : World) (s : Nat) (st : SignalState) (n : Nat) :
    viewErr (setSignal w s st) n = viewErr w n := rfl

end StdCtx

namespace StdCtx

theorem viewErr_set_reason_write {w : World} {m n : Nat} {err e : ContextError}
    {nd : Node} (hg : getNode w m = some nd)
    (hr : nd.cancellationReason.isSome = false)
    (hv : viewErr w n = some e) :
    viewErr (updNode w m fun nd => { nd with cancellationReason := some err }) n
      = some e := by
  by_cases hmn : n = m
  · subst hmn
    rw [viewErr_of_get (getNode_updNode_self hg)]
    rw [viewErr_of_get hg] at hv
    cases hvv : nd.variant <;> rw [hvv] at hv <;> simp_all
  · unfold viewErr
    rw [getNode_updNode_ne hmn]
    exact hv

set_option maxHeartbeats 1000000 in
/-- Once a node's `getCancellationError()` answers an error, no run of the
internal cancellation machinery ever changes that answer: `#cancellationReason`
is written only under the not-yet-set guard, and nothing resets it. -/
theorem viewErr_mono_interp : ∀ fuel : Nat,
    (∀ (w : World) (m : Nat) (err : ContextError) (n : Nat) (e : ContextError),
      viewErr w n = some e → viewErr (cancelCtx fuel w m err).1 n = some e)
    ∧ (∀ (w : World) (m : Nat) (err : ContextError) (n : Nat) (e : ContextError),
      viewErr w n = some e → viewErr (fireEvent fuel w m err).1 n = some e)
    ∧ (∀ (w : World) (m : Nat) (h : Handler) (err : ContextError)
        (n : Nat) (e : ContextError),
      viewErr w n = some e → viewErr (runHandler fuel w m h err).1 n = some e) := by
  intro fuel
  induction fuel with
  | zero =>
    refine ⟨?_, ?_, ?_⟩
    · intro w m err n e hv
      simp only [cancelCtx]
      exact hv
    · intro w m err n e hv
      simp only [fireEvent]
      exact hv
    · intro w m h err n e hv
      simp only [runHandler]
      exact hv
  | succ f IH =>
    obtain ⟨IHc, IHf, IHr⟩ := IH
    refine ⟨?_, ?_, ?_⟩
    · intro w m err n e hv
      cases hg : getNode w m with
      | none =>
        simp only [cancelCtx, hg]
        exact hv
      | some nd =>
        by_cases hr : nd.cancellationReason.isSome = true
        · simp only [cancelCtx, hg, hr, if_true]
          exact hv
        · have hr' : nd.cancellationReason.isSome = false := by
            simpa using hr
          have hv1 : viewErr
              (updNode w m fun nd => { nd with cancellationReason := some err }) n
              = some e := viewErr_set_reason_write hg hr' hv
          rcases hfe : fireEvent f
              (updNode w m fun nd => { nd with cancellationReason := some err }) m err
            with ⟨w2, errs⟩
          have hv2 : viewErr w2 n = some e := by
            have h2 := IHf _ m err n e hv1
            rw [hfe] at h2
            exact h2
          simp only [cancelCtx, hg, hr', Bool.false_eq_true, if_false, hfe]
          by_cases he : errs.isEmpty <;> simp only [he, if_true, if_false]
          · rw [viewErr_updNode_congr (f := fun nd => { nd with handlers := none })
              (fun nd => ⟨rfl, rfl⟩)]
            exact hv2
          · exact hv2
    · intro w m err n e hv
      cases hg : getNode w m with
      | none =>
        simp only [fireEvent, hg]
        exact hv
      | some nd =>
        cases hh : nd.handlers with
        | none =>
          simp only [fireEvent, hg, hh]
          exact hv
        | some l =>
          cases l with
          | nil =>
            simp only [fireEvent, hg, hh]
            exact hv
          | cons h rest =>
            have hv1 : viewErr
                (updNode w m fun nd => { nd with handlers := some rest }) n
                = some e := by
              rw [viewErr_updNode_congr (f := fun nd => { nd with handlers := some rest })
                (fun nd => ⟨rfl, rfl⟩)]
              exact hv
            rcases hrh : runHandler f
                (updNode w m fun nd => { nd with handlers := some rest }) m h err
              with ⟨w2, errs1⟩
            have hv2 : viewErr w2 n = some e := by
              have h2 := IHr _ m h err n e hv1
              rw [hrh] at h2
              exact h2
            rcases hfe : fireEvent f w2 m err with ⟨w3, errs2⟩
            have hv3 : viewErr w3 n = some e := by
              have h3 := IHf w2 m err n e hv2
              rw [hfe] at h3
              exact h3
            simp only [fireEvent, hg, hh, hrh, hfe]
            exact hv3
    · intro w m h err n e hv
      cases h with
      | user tag =>
        simp only [runHandler]
        exact hv
      | userThrow tag =>
        simp only [runHandler]
        exact hv
      | userProbe tag =>
        simp only [runHandler]
        exact hv
      | cascade child =>
        rcases hcc : cancelCtx f w child err with ⟨w2, errs⟩
        have hv2 : viewErr w2 n = some e := by
          have h2 := IHc w child err n e hv
          rw [hcc] at h2
          exact h2
        simp only [runHandler, hcc]
        exact hv2
      | selfDispose m2 =>
        simp only [runHandler]
        rw [viewErr_disposeNode]
        exact hv
      | clearTimer m2 =>
        simp only [runHandler]
        rw [viewErr_updNode_congr (f := fun nd => { nd with timerArmed := false })
          (fun nd => ⟨rfl, rfl⟩)]
        exact hv
      | removeSignalListener s m2 =>
        simp only [runHandler]
        rw [viewErr_removeListener]
        exact hv

theorem viewErr_mono_cancelCtx {fuel : Nat} {w : World} {m : Nat}
    {err : ContextError} {n : Nat} {e : ContextError}
    (hv : viewErr w n = some e) :
    viewErr (cancelCtx fuel w m err).1 n = some e :=
  (viewErr_mono_interp fuel).1 w m err n e hv

theorem viewErr_mono_fireEvent {fuel : Nat} {w : World} {m : Nat}
    {err : ContextError} {n : Nat} {e : ContextError}
    (hv : viewErr w n = some e) :
    viewErr (fireEvent fuel w m err).1 n = some e :=
  (viewErr_mono_interp fuel).2.1 w m err n e hv

end StdCtx

namespace StdCtx

theorem viewErr_appendNode {w : World} {nd0 : Node} {n : Nat} {nd : Node}
    (hg : getNode w n = some nd) :
    viewErr { w with nodes := w.nodes ++ [nd0] } n = viewErr w n := by
  unfold viewErr
  rw [getNode_appendNode (getNode_lt_length hg)]

theorem viewErr_newChildNode {w : World} {p : Nat} {v : Variant} {n : Nat}
    {nd : Node} (hg : getNode w n = some nd) :
    viewErr (newChildNode w p v).1 n = viewErr w n := by
  simp only [newChildNode]
  rw [viewErr_onDidCancel, viewErr_onDidCancel]
  exact viewErr_appendNode hg

theorem viewErr_mkDeadlineChild {w : World} {p : Nat} {t : Int}
    {msg : Option String} {n : Nat} {nd : Node} (hg : getNode w n = some nd) :
    viewErr (mkDeadlineChild w p t msg).1 n = viewErr w n := by
  rcases hnc : newChildNode w p
      (.withDeadline t (msg.getD "Deadline exceeded")) with ⟨w1, c1⟩
  have h1 : viewErr w1 n = viewErr w n := by
    have h2 := viewErr_newChildNode
      (v := .withDeadline t (msg.getD "Deadline exceeded")) (p := p) hg
    rw [hnc] at h2
    exact h2
  simp only [mkDeadlineChild, hnc]
  rw [viewErr_onDidCancel,
    viewErr_updNode_congr (f := fun nd => { nd with timerArmed := true })
      (fun nd => ⟨rfl, rfl⟩)]
  exact h1

theorem viewErr_withDeadline {w : World} {p : Nat} {t : Int}
    {msg : Option String} {n : Nat} {nd : Node} (hg : getNode w n = some nd) :
    viewErr (withDeadline w p t msg).1 n = viewErr w n := by
  unfold withDeadline
  by_cases ht : t ≤ w.now
  · simp only [ht, if_true]
    exact viewErr_newChildNode hg
  · simp only [ht, if_false]
    cases hb : (getNode w p).bind (·.baseDeadline) with
    | none => exact viewErr_mkDeadlineChild hg
    | some d =>
      dsimp only
      by_cases hd : d ≠ 0 ∧ d < t
      · rw [if_pos hd]
        exact viewErr_newChildNode hg
      · rw [if_neg hd]
        exact viewErr_mkDeadlineChild hg

theorem viewErr_withAbortSignal {w : World} {p s : Nat} {n : Nat}
    {nd : Node} (hg : getNode w n = some nd) :
    viewErr (withAbortSignal w p s).1 n = viewErr w n := by
  rcases hwc : withCancel w p with ⟨w1, c1⟩
  have h1 : viewErr w1 n = viewErr w n := by
    have h2 := viewErr_newChildNode (v := .plain) (p := p) hg
    rw [withCancel_def] at hwc
    rw [hwc] at h2
    exact h2
  simp only [withAbortSignal, hwc]
  rw [viewErr_setSignal, viewErr_onDidCancel]
  exact h1

theorem viewErr_mono_getCancellationErrorM {fuel : Nat} {w : World} {m : Nat}
    {n : Nat} {e : ContextError} (hv : viewErr w n = some e) :
    viewErr (getCancellationErrorM fuel w m).1 n = some e := by
  cases hg : getNode w m with
  | none =>
    simp only [getCancellationErrorM, hg]
    exact hv
  | some nd =>
    cases hvv : nd.variant with
    | preCancelled e0 =>
      simp only [getCancellationErrorM, hg, hvv]
      exact hv
    | plain =>
      by_cases hr : nd.cancellationReason.isSome = true
      · simp only [getCancellationErrorM, hg, hvv, hr, if_true]
        exact hv
      · have hr' : nd.cancellationReason.isSome = false := by simpa using hr
        cases hro : (checkCancellationState w m).orElse
            (fun _ => match nd.parentId with
              | some p => checkCancellationState w p
              | none => none) with
        | none =>
          simp only [getCancellationErrorM, hg, hvv, hr', Bool.false_eq_true,
            if_false, hro]
          exact hv
        | some r =>
          rcases hcc : cancelCtx fuel w m r with ⟨w2, errs⟩
          have hv2 : viewErr w2 n = some e := by
            have h2 := @viewErr_mono_cancelCtx fuel w m r n e hv
            rw [hcc] at h2
            exact h2
          simp only [getCancellationErrorM, hg, hvv, hr', Bool.false_eq_true,
            if_false, hro, hcc]
          exact hv2
    | withData k v =>
      by_cases hr : nd.cancellationReason.isSome = true
      · simp only [getCancellationErrorM, hg, hvv, hr, if_true]
        exact hv
      · have hr' : nd.cancellationReason.isSome = false := by simpa using hr
        cases hro : (checkCancellationState w m).orElse
            (fun _ => match nd.parentId with
              | some p => checkCancellationState w p
              | none => none) with
        | none =>
          simp only [getCancellationErrorM, hg, hvv, hr', Bool.false_eq_true,
            if_false, hro]
          exact hv
        | some r =>
          rcases hcc : cancelCtx fuel w m r with ⟨w2, errs⟩
          have hv2 : viewErr w2 n = some e := by
            have h2 := @viewErr_mono_cancelCtx fuel w m r n e hv
            rw [hcc] at h2
            exact h2
          simp only [getCancellationErrorM, hg, hvv, hr', Bool.false_eq_true,
            if_false, hro, hcc]
          exact hv2
    | withDeadline t msg =>
      by_cases hr : nd.cancellationReason.isSome = true
      · simp only [getCancellationErrorM, hg, hvv, hr, if_true]
        exact hv
      · have hr' : nd.cancellationReason.isSome = false := by simpa using hr
        cases hro : (checkCancellationState w m).orElse
            (fun _ => match nd.parentId with
              | some p => checkCancellationState w p
              | none => none) with
        | none =>
          simp only [getCancellationErrorM, hg, hvv, hr', Bool.false_eq_true,
            if_false, hro]
          exact hv
        | some r =>
          rcases hcc : cancelCtx fuel w m r with ⟨w2, errs⟩
          have hv2 : viewErr w2 n = some e := by
            have h2 := @viewErr_mono_cancelCtx fuel w m r n e hv
            rw [hcc] at h2
            exact h2
          simp only [getCancellationErrorM, hg, hvv, hr', Bool.false_eq_true,
            if_false, hro, hcc]
          exact hv2

theorem viewErr_mono_cancelViaController {fuel : Nat} {w : World} {m : Nat}
    {r : Option Nat} {n : Nat} {e : ContextError} (hv : viewErr w n = some e) :
    viewErr (cancelViaController fuel w m r).1 n = some e := by
  rcases hq : getCancellationErrorM fuel w m with ⟨w1, errs, v⟩
  have hv1 : viewErr w1 n = some e := by
    have h1 := @viewErr_mono_getCancellationErrorM fuel w m n e hv
    rw [hq] at h1
    exact h1
  cases v with
  | some e0 =>
    simp only [cancelViaController, hq]
    exact hv1
  | none =>
    rcases hcc : cancelCtx fuel w1 m (.cancellation r) with ⟨w2, errs2⟩
    have hv2 : viewErr w2 n = some e := by
      have h2 := @viewErr_mono_cancelCtx fuel w1 m (.cancellation r) n e hv1
      rw [hcc] at h2
      exact h2
    simp only [cancelViaController, hq, hcc]
    exact hv2

theorem viewErr_mono_runAbortListeners {fuel : Nat} {s : Nat}
    {n : Nat} {e : ContextError} :
    ∀ (ls : List Nat) (w : World), viewErr w n = some e →
      viewErr (runAbortListeners fuel w s ls).1 n = some e := by
  intro ls
  induction ls with
  | nil =>
    intro w hv
    simp only [runAbortListeners]
    exact hv
  | cons c rest ih =>
    intro w hv
    rcases hcv : cancelViaController fuel w c ((getSignal w s).reason)
      with ⟨w1, errs1⟩
    have hv1 : viewErr w1 n = some e := by
      have h1 := @viewErr_mono_cancelViaController fuel w c
        ((getSignal w s).reason) n e hv
      rw [hcv] at h1
      exact h1
    rcases hra : runAbortListeners fuel w1 s rest with ⟨w2, errs2⟩
    have hv2 : viewErr w2 n = some e := by
      have h2 := ih w1 hv1
      rw [hra] at h2
      exact h2
    simp only [runAbortListeners, hcv, hra]
    exact hv2

theorem viewErr_mono_abortSignal {fuel : Nat} {w : World} {s : Nat}
    {r : Option Nat} {n : Nat} {e : ContextError} (hv : viewErr w n = some e) :
    viewErr (abortSignal fuel w s r).1 n = some e := by
  by_cases ha : (getSignal w s).aborted = true
  · simp only [abortSignal, ha, if_true]
    exact hv
  · have ha' : (getSignal w s).aborted = false := by simpa using ha
    simp only [abortSignal, ha', Bool.false_eq_true, if_false]
    apply viewErr_mono_runAbortListeners
    rw [viewErr_setSignal]
    exact hv

theorem viewErr_mono_timerFire {fuel : Nat} {w : World} {m : Nat}
    {n : Nat} {e : ContextError} (hv : viewErr w n = some e) :
    viewErr (timerFire fuel w m) n = some e := by
  cases hg : getNode w m with
  | none =>
    simp only [timerFire, hg]
    exact hv
  | some nd =>
    cases hvv : nd.variant with
    | withDeadline t msg =>
      by_cases hdue : nd.timerArmed ∧ t ≤ w.now
      · simp only [timerFire, hg, hvv, hdue, if_true]
        exact viewErr_mono_cancelCtx hv
      · simp only [timerFire, hg, hvv, hdue, if_false]
        exact hv
    | plain =>
      simp only [timerFire, hg, hvv]
      exact hv
    | withData k v =>
      simp only [timerFire, hg, hvv]
      exact hv
    | preCancelled e0 =>
      simp only [timerFire, hg, hvv]
      exact hv

end StdCtx

namespace StdCtx

set_option maxHeartbeats 1000000 in
/-- C2: cancellation state is write-once.  Once a node's
`getCancellationError()` answers an error `e` (so `isCancelled()` is `true`),
every public operation — deriving children, registering handlers, cancelling
anything with any reason from any source, firing timers, aborting signals,
disposing, advancing time — leaves that answer at exactly `e` forever; and a
second cancel call through the node's controller is a complete no-op that
returns the world unchanged and throws nothing. -/
theorem cancellation_state_is_write_once
    (w : World) (n : Nat) (e : ContextError)
    (hv : viewErr w n = some e) :
    (∀ (fuel : Nat) (op : Op), viewErr (applyOp fuel op w) n = some e)
    ∧ ∀ (fuel : Nat) (r : Option Nat), cancelViaController fuel w n r = (w, []) := by
  obtain ⟨nd, hg⟩ : ∃ nd, getNode w n = some nd := by
    unfold viewErr at hv
    cases hgg : getNode w n with
    | none => rw [hgg] at hv; exact absurd hv (by simp)
    | some nd => exact ⟨nd, rfl⟩
  constructor
  · intro fuel op
    cases op with
    | opCreateRoot =>
      simp only [applyOp, createRootContext]
      rw [viewErr_appendNode hg]
      exact hv
    | opWithCancel p =>
      simp only [applyOp, withCancel_def]
      rw [viewErr_newChildNode hg]
      exact hv
    | opWithData p k v =>
      simp only [applyOp, withData]
      rw [viewErr_newChildNode hg]
      exact hv
    | opWithDeadline p t msg =>
      simp only [applyOp]
      rw [viewErr_withDeadline hg]
      exact hv
    | opWithTimeout p ms msg =>
      simp only [applyOp, withTimeout]
      rw [viewErr_withDeadline hg]
      exact hv
    | opWithAbortSignal p s =>
      simp only [applyOp]
      rw [viewErr_withAbortSignal hg]
      exact hv
    | opRegisterUser m tag =>
      simp only [applyOp]
      rw [viewErr_onDidCancel]
      exact hv
    | opRegisterThrow m tag =>
      simp only [applyOp]
      rw [viewErr_onDidCancel]
      exact hv
    | opRegisterProbe m tag =>
      simp only [applyOp]
      rw [viewErr_onDidCancel]
      exact hv
    | opCtrlCancel m r =>
      simp only [applyOp]
      exact viewErr_mono_cancelViaController hv
    | opQueryCancellation m =>
      simp only [applyOp]
      exact viewErr_mono_getCancellationErrorM hv
    | opTimerFire m =>
      simp only [applyOp]
      exact viewErr_mono_timerFire hv
    | opAbortSignal s r =>
      simp only [applyOp]
      exact viewErr_mono_abortSignal hv
    | opDispose m =>
      simp only [applyOp]
      rw [viewErr_disposeNode]
      exact hv
    | opAdvanceTime d =>
      simp only [applyOp]
      exact hv
  · intro fuel r
    rw [viewErr_of_get hg] at hv
    cases hvv : nd.variant with
    | preCancelled e0 =>
      simp [cancelViaController, getCancellationErrorM, hg, hvv]
    | plain =>
      simp only [hvv] at hv
      simp [cancelViaController, getCancellationErrorM, hg, hvv, hv]
    | withData k v =>
      simp only [hvv] at hv
      simp [cancelViaController, getCancellationErrorM, hg, hvv, hv]
    | withDeadline t msg =>
      simp only [hvv] at hv
      simp [cancelViaController, getCancellationErrorM, hg, hvv, hv]

end StdCtx

namespace StdCtx

/-- Witness for C2 at a concrete input: after cancelling a fresh child with
reason 1, re-cancelling it with reason 2 keeps the stored error
`.cancellation (some 1)` and is a no-op. -/
theorem cancellation_state_is_write_once_witness :
    viewErr
        (cancelViaController 5 (withCancel (createRootContext ({} : World)).1 0).1
          1 (some 1)).1 1 = some (.cancellation (some 1))
    ∧ viewErr
        (applyOp 7 (.opCtrlCancel 1 (some 2))
          (cancelViaController 5 (withCancel (createRootContext ({} : World)).1 0).1
            1 (some 1)).1) 1 = some (.cancellation (some 1))
    ∧ cancelViaController 7
        (cancelViaController 5 (withCancel (createRootContext ({} : World)).1 0).1
          1 (some 1)).1 1 (some 2)
      = ((cancelViaController 5 (withCancel (createRootContext ({} : World)).1 0).1
          1 (some 1)).1, []) := by
  have hv : viewErr
      (cancelViaController 5 (withCancel (createRootContext ({} : World)).1 0).1
        1 (some 1)).1 1 = some (.cancellation (some 1)) := by decide
  have H := cancellation_state_is_write_once
    (cancelViaController 5 (withCancel (createRootContext ({} : World)).1 0).1
      1 (some 1)).1 1 (.cancellation (some 1)) hv
  exact ⟨hv, H.1 7 (.opCtrlCancel 1 (some 2)), H.2 7 (some 2)⟩

end StdCtx

namespace StdCtx

theorem checkCancellationState_of_frame {w2 w1 : World} {c : Nat}
    (hget : getNode w2 c = getNode w1 c) (hnow : w2.now = w1.now) :
    checkCancellationState w2 c = checkCancellationState w1 c := by
  unfold checkCancellationState
  rw [hget, hnow]

theorem chainAt_congr :
    ∀ (k : Nat) (w1 w2 : World) (q c : Nat),
    (∀ m, c ≤ m → getNode w2 m = getNode w1 m) →
    w2.now = w1.now →
    ChainAt w1 q c k → ChainAt w2 q c k := by
  intro k
  induction k with
  | zero => intro w1 w2 q c _ _ _; trivial
  | succ k ih =>
    intro w1 w2 q c hframe hnow hch
    obtain ⟨⟨nd, bs, hget, hpar, hres, hpre, hchk, hben, hlen, hh⟩, htail⟩ := hch
    refine ⟨⟨nd, bs, ?_, hpar, hres, hpre, ?_, hben, hlen, hh⟩, ?_⟩
    · rw [hframe c (Nat.le_refl c)]
      exact hget
    · rw [checkCancellationState_of_frame (hframe c (Nat.le_refl c)) hnow]
      exact hchk
    · exact ih w1 w2 c (c + 1) (fun m hm => hframe m (by omega)) hnow htail

theorem erase_cascade_of_benign {bs : List Handler} {c c2 : Nat}
    (hben : ∀ h ∈ bs, Benign c h) :
    (bs ++ [Handler.selfDispose c]).erase (.cascade c2)
      = bs ++ [Handler.selfDispose c] := by
  apply List.erase_of_not_mem
  intro hmem
  rw [List.mem_append] at hmem
  cases hmem with
  | inl hmem =>
    obtain ⟨s, hb⟩ := hben _ hmem
    cases hb <;> simp_all
  | inr hmem =>
    simp at hmem

end StdCtx

namespace StdCtx

set_option maxHeartbeats 1600000 in
/-- Cancelling the head of a freshly built descendant chain cascades through
every chain node: each one ends up with the delivered error recorded and its
callback stack self-disposed, nothing is thrown, nodes outside the chain are
untouched except the head's parent (which only loses the head's cascade
subscription), and time, trace and node count are preserved. -/
theorem cancelChain :
    ∀ (k : Nat) (fuel : Nat) (w : World) (q c : Nat) (err : ContextError),
    ChainAt w q c (k + 1) →
    q < c →
    6 * k + 12 ≤ fuel →
    ∃ w', cancelCtx fuel w c err = (w', [])
      ∧ (∀ i, i < k + 1 → ∃ nd, getNode w (c + i) = some nd
          ∧ getNode w' (c + i) =
            some { nd with cancellationReason := some err, handlers := none, timerArmed := false })
      ∧ (∀ m, m ≠ q → (m < c ∨ c + (k + 1) ≤ m) → getNode w' m = getNode w m)
      ∧ getNode w' q = (getNode w q).map
          (fun pnd => { pnd with handlers := pnd.handlers.map (·.erase (.cascade c)) })
      ∧ w'.now = w.now ∧ w'.trace = w.trace ∧ w'.nodes.length = w.nodes.length := by
  intro k
  induction k with
  | zero =>
    intro fuel w q c err hch hqc hfuel
    obtain ⟨⟨nd, bs, hget, hpar, hres, _, _, hben, hblen, hh⟩, _⟩ := hch
    have hh' : nd.handlers = some (bs ++ [.selfDispose c]) := by simpa using hh
    obtain ⟨f, rfl⟩ : ∃ f, fuel = f + 1 := ⟨fuel - 1, by omega⟩
    have hres' : nd.cancellationReason.isSome = false := by rw [hres]; rfl
    have hget1 : getNode (updNode w c fun nd => { nd with cancellationReason := some err }) c
        = some { nd with cancellationReason := some err } := getNode_updNode_self hget
    obtain ⟨w4, hfire, hother, hc4, hq4, hnow4, htr4, hlen4⟩ :=
      fireEvent_benign bs f _ c q _ err hget1 hh' hpar (Nat.ne_of_lt hqc) hben
        (by omega)
    refine ⟨updNode w4 c fun nd => { nd with handlers := none }, ?_, ?_, ?_, ?_, ?_, ?_, ?_⟩
    · simp only [cancelCtx, hget, hres', Bool.false_eq_true, if_false, hfire]
      simp
    · intro i hi
      have hi0 : i = 0 := by omega
      subst hi0
      refine ⟨nd, hget, ?_⟩
      simp only [Nat.add_zero]
      rw [getNode_updNode_self hc4]
    · intro m hmq hmr
      have hmc : m ≠ c := by omega
      rw [getNode_updNode_ne hmc, hother m hmc hmq, getNode_updNode_ne hmc]
    · rw [getNode_updNode_ne (Nat.ne_of_lt hqc), hq4,
        getNode_updNode_ne (Nat.ne_of_lt hqc)]
    · simp only [updNode_now, hnow4]
    · simp only [updNode_trace, htr4]
    · simp only [updNode_length, hlen4]
  | succ k ih =>
    intro fuel w q c err hch hqc hfuel
    obtain ⟨⟨nd, bs, hget, hpar, hres, _, _, hben, hblen, hh⟩, htail⟩ := hch
    have hh' : nd.handlers = some (.cascade (c + 1) :: (bs ++ [.selfDispose c])) := by
      simpa using hh
    obtain ⟨g, rfl⟩ : ∃ g, fuel = g + 3 := ⟨fuel - 3, by omega⟩
    have hres' : nd.cancellationReason.isSome = false := by rw [hres]; rfl
    have hgetW1 : getNode (updNode w c fun nd => { nd with cancellationReason := some err }) c
        = some { nd with cancellationReason := some err } := getNode_updNode_self hget
    have hgetW1' : getNode (updNode
        (updNode w c fun nd => { nd with cancellationReason := some err }) c
        fun nd => { nd with handlers := some (bs ++ [.selfDispose c]) }) c
        = some { nd with cancellationReason := some err, handlers := some (bs ++ [.selfDispose c]) } := by
      rw [getNode_updNode_self hgetW1]
    have hchain1 : ChainAt (updNode
        (updNode w c fun nd => { nd with cancellationReason := some err }) c
        fun nd => { nd with handlers := some (bs ++ [.selfDispose c]) }) c (c + 1) (k + 1) := by
      refine chainAt_congr (k + 1) w _ c (c + 1) ?_ ?_ htail
      · intro m hm
        have hmc : m ≠ c := by omega
        rw [getNode_updNode_ne hmc, getNode_updNode_ne hmc]
      · simp
    obtain ⟨w2, hcc, hent2, hframe2, hq2, hnow2, htr2, hlen2⟩ :=
      ih g _ c (c + 1) err hchain1 (by omega) (by omega)
    have hc2 : getNode w2 c
        = some { nd with cancellationReason := some err, handlers := some (bs ++ [.selfDispose c]) } := by
      rw [hq2, hgetW1']
      simp [erase_cascade_of_benign hben]
    have hrun : runHandler (g + 1) (updNode
        (updNode w c fun nd => { nd with cancellationReason := some err }) c
        fun nd => { nd with handlers := some (bs ++ [.selfDispose c]) }) c
        (.cascade (c + 1)) err = (w2, []) := by
      simp only [runHandler, hcc]
      simp
    obtain ⟨w4, hfire4, hother4, hc4, hq4, hnow4, htr4, hlen4⟩ :=
      fireEvent_benign bs (g + 1) w2 c q _ err hc2 rfl hpar (Nat.ne_of_lt hqc) hben
        (by omega)
    have hfe : fireEvent (g + 2) (updNode w c fun nd =>
        { nd with cancellationReason := some err }) c err = (w4, []) := by
      conv_lhs => rw [fireEvent]
      simp only [hgetW1, hh']
      rw [hrun]
      dsimp only
      rw [hfire4]
      rfl
    refine ⟨updNode w4 c fun nd => { nd with handlers := none }, ?_, ?_, ?_, ?_, ?_, ?_, ?_⟩
    · show cancelCtx (g + 2 + 1) w c err = _
      simp only [cancelCtx, hget, hres', Bool.false_eq_true, if_false, hfe]
      simp
    · intro i hi
      cases i with
      | zero =>
        refine ⟨nd, hget, ?_⟩
        simp only [Nat.add_zero]
        rw [getNode_updNode_self hc4]
      | succ j =>
        obtain ⟨ndj, hgj, hgj'⟩ := hent2 j (by omega)
        have hne : c + 1 + j ≠ c := by omega
        refine ⟨ndj, ?_, ?_⟩
        · have : c + (j + 1) = c + 1 + j := by omega
          rw [this, ← hgj, getNode_updNode_ne hne, getNode_updNode_ne hne]
        · have : c + (j + 1) = c + 1 + j := by omega
          rw [this, getNode_updNode_ne hne,
            hother4 _ hne (by omega), hgj']
    · intro m hmq hmr
      have hmc : m ≠ c := by omega
      rw [getNode_updNode_ne hmc, hother4 m hmc hmq,
        hframe2 m hmc (by omega), getNode_updNode_ne hmc, getNode_updNode_ne hmc]
    · have hqc' : q ≠ c := Nat.ne_of_lt hqc
      rw [getNode_updNode_ne hqc', hq4,
        hframe2 q hqc' (by omega), getNode_updNode_ne hqc', getNode_updNode_ne hqc']
    · simp only [updNode_now, hnow4, hnow2]
    · simp only [updNode_trace, htr4, htr2]
    · simp only [updNode_length, hlen4, hlen2]

end StdCtx

namespace StdCtx

set_option maxHeartbeats 1000000 in
/-- Every public derivation step allocates exactly one fresh child node whose
shape is described by `specVariant`/`specExtras`/`specTimer`: parented at `p`,
base deadline slot still empty (the subclass shadows it), uncancelled, with
the step's internal subscriptions above the self-dispose one; the parent only
gains the cascade subscription, everything else is untouched. -/
theorem buildStep_facts (w : World) (p : Nat) (st : StepSpec)
    (hp : p < w.nodes.length)
    (hbase : (getNode w p).bind (·.baseDeadline) = none)
    (hlive : (specVariant w.now st).isPre = false) :
    (buildStep w p st).2 = w.nodes.length
    ∧ getNode (buildStep w p st).1 w.nodes.length =
        some { parentId := some p, baseDeadline := none,
               variant := specVariant w.now st, cancellationReason := none,
               handlers := some (specExtras w.now w.nodes.length st ++ [.selfDispose w.nodes.length]),
               timerArmed := specTimer w.now st }
    ∧ (∀ m, m < w.nodes.length → m ≠ p → getNode (buildStep w p st).1 m = getNode w m)
    ∧ getNode (buildStep w p st).1 p = (getNode w p).map
        (fun pnd => { pnd with handlers := some (.cascade w.nodes.length :: pnd.handlers.getD []) })
    ∧ (buildStep w p st).1.now = w.now
    ∧ (buildStep w p st).1.trace = w.trace
    ∧ (buildStep w p st).1.nodes.length = w.nodes.length + 1 := by
  obtain ⟨pnd, hpnd⟩ := getNode_of_lt hp
  cases st with
  | cancelStep =>
    refine ⟨rfl, ?_, ?_, ?_, ?_, ?_, ?_⟩
    · have h := newChildNode_get_child (w := w) (p := p) (v := .plain) hp
      rw [hbase] at h
      exact h
    · intro m hm hmp
      exact newChildNode_get_other hm hmp
    · rw [hpnd]
      exact newChildNode_get_parent hpnd
    · simp [buildStep, withCancel_def]
    · simp [buildStep, withCancel_def]
    · simp [buildStep, withCancel_def]
  | dataStep k v =>
    refine ⟨rfl, ?_, ?_, ?_, ?_, ?_, ?_⟩
    · have h := newChildNode_get_child (w := w) (p := p) (v := .withData k v) hp
      rw [hbase] at h
      exact h
    · intro m hm hmp
      exact newChildNode_get_other hm hmp
    · rw [hpnd]
      exact newChildNode_get_parent hpnd
    · simp [buildStep, withData]
    · simp [buildStep, withData]
    · simp [buildStep, withData]
  | deadlineStep t msg =>
    have ht : ¬ t ≤ w.now := by
      by_cases h : t ≤ w.now
      · simp [specVariant, h, Variant.isPre] at hlive
      · exact h
    have hstep : buildStep w p (.deadlineStep t msg) = mkDeadlineChild w p t msg := by
      simp only [buildStep, withDeadline, if_neg ht, hbase]
    have hc0 := newChildNode_get_child
      (w := w) (p := p) (v := .withDeadline t (msg.getD "Deadline exceeded")) hp
    rw [hbase] at hc0
    have hc1 : getNode (updNode (newChildNode w p
          (.withDeadline t (msg.getD "Deadline exceeded"))).1 w.nodes.length
          fun nd => { nd with timerArmed := true }) w.nodes.length
        = some { parentId := some p, baseDeadline := none,
                 variant := .withDeadline t (msg.getD "Deadline exceeded"),
                 cancellationReason := none,
                 handlers := some [.selfDispose w.nodes.length], timerArmed := true } := by
      rw [getNode_updNode_self hc0]
    have hmk2 : (mkDeadlineChild w p t msg).2 = w.nodes.length := by
      simp only [mkDeadlineChild, newChildNode_id]
    have hmk1 : (mkDeadlineChild w p t msg).1 =
        onDidCancel (updNode (newChildNode w p
            (.withDeadline t (msg.getD "Deadline exceeded"))).1 w.nodes.length
          fun nd => { nd with timerArmed := true }) w.nodes.length
          (.clearTimer w.nodes.length) := by
      simp only [mkDeadlineChild, newChildNode_id]
    rw [hstep, hmk1, hmk2]
    refine ⟨rfl, ?_, ?_, ?_, ?_, ?_, ?_⟩
    · rw [getNode_onDidCancel_self hc1]
      simp [specVariant, specExtras, specTimer, ht]
    · intro m hm hmp
      have hmc : m ≠ w.nodes.length := Nat.ne_of_lt hm
      rw [getNode_onDidCancel_ne hmc, getNode_updNode_ne hmc]
      exact newChildNode_get_other hm hmp
    · have hpc : p ≠ w.nodes.length := Nat.ne_of_lt hp
      rw [getNode_onDidCancel_ne hpc, getNode_updNode_ne hpc,
        newChildNode_get_parent hpnd, hpnd]
      rfl
    · simp
    · simp
    · simp
  | timeoutStep ms msg =>
    have ht : ¬ w.now + ms ≤ w.now := by
      by_cases h : w.now + ms ≤ w.now
      · simp [specVariant, h, Variant.isPre] at hlive
      · exact h
    have hstep : buildStep w p (.timeoutStep ms msg)
        = mkDeadlineChild w p (w.now + ms) msg := by
      simp only [buildStep, withTimeout, withDeadline, if_neg ht, hbase]
    have hc0 := newChildNode_get_child
      (w := w) (p := p) (v := .withDeadline (w.now + ms) (msg.getD "Deadline exceeded")) hp
    rw [hbase] at hc0
    have hc1 : getNode (updNode (newChildNode w p
          (.withDeadline (w.now + ms) (msg.getD "Deadline exceeded"))).1 w.nodes.length
          fun nd => { nd with timerArmed := true }) w.nodes.length
        = some { parentId := some p, baseDeadline := none,
                 variant := .withDeadline (w.now + ms) (msg.getD "Deadline exceeded"),
                 cancellationReason := none,
                 handlers := some [.selfDispose w.nodes.length], timerArmed := true } := by
      rw [getNode_updNode_self hc0]
    have hmk2 : (mkDeadlineChild w p (w.now + ms) msg).2 = w.nodes.length := by
      simp only [mkDeadlineChild, newChildNode_id]
    have hmk1 : (mkDeadlineChild w p (w.now + ms) msg).1 =
        onDidCancel (updNode (newChildNode w p
            (.withDeadline (w.now + ms) (msg.getD "Deadline exceeded"))).1 w.nodes.length
          fun nd => { nd with timerArmed := true }) w.nodes.length
          (.clearTimer w.nodes.length) := by
      simp only [mkDeadlineChild, newChildNode_id]
    rw [hstep, hmk1, hmk2]
    refine ⟨rfl, ?_, ?_, ?_, ?_, ?_, ?_⟩
    · rw [getNode_onDidCancel_self hc1]
      simp [specVariant, specExtras, specTimer, ht]
    · intro m hm hmp
      have hmc : m ≠ w.nodes.length := Nat.ne_of_lt hm
      rw [getNode_onDidCancel_ne hmc, getNode_updNode_ne hmc]
      exact newChildNode_get_other hm hmp
    · have hpc : p ≠ w.nodes.length := Nat.ne_of_lt hp
      rw [getNode_onDidCancel_ne hpc, getNode_updNode_ne hpc,
        newChildNode_get_parent hpnd, hpnd]
      rfl
    · simp
    · simp
    · simp
  | signalStep s =>
    have hstep1 : (buildStep w p (.signalStep s)).1 =
        setSignal (onDidCancel (withCancel w p).1 (withCancel w p).2
            (.removeSignalListener s (withCancel w p).2)) s
          { getSignal (onDidCancel (withCancel w p).1 (withCancel w p).2
              (.removeSignalListener s (withCancel w p).2)) s with
            listeners :=
              (getSignal (onDidCancel (withCancel w p).1 (withCancel w p).2
                (.removeSignalListener s (withCancel w p).2)) s).listeners
              ++ [(withCancel w p).2] } := by
      show (withAbortSignal w p s).1 = _
      rw [withAbortSignal_def]
    have hstep2 : (buildStep w p (.signalStep s)).2 = w.nodes.length := by
      show (withAbortSignal w p s).2 = _
      rw [withAbortSignal_def, withCancel_def, newChildNode_id]
    have hc0 := newChildNode_get_child (w := w) (p := p) (v := .plain) hp
    rw [hbase] at hc0
    have hc0' : getNode (withCancel w p).1 (withCancel w p).2
        = some { parentId := some p, baseDeadline := none, variant := .plain,
                 cancellationReason := none,
                 handlers := some [.selfDispose w.nodes.length], timerArmed := false } := by
      rw [withCancel_def, newChildNode_id]
      exact hc0
    rw [hstep1, hstep2]
    refine ⟨rfl, ?_, ?_, ?_, ?_, ?_, ?_⟩
    · rw [getNode_setSignal]
      have hcl : (withCancel w p).2 = w.nodes.length := by
        rw [withCancel_def, newChildNode_id]
      rw [← hcl]
      rw [getNode_onDidCancel_self hc0']
      rw [hcl]
      rfl
    · intro m hm hmp
      have hmc : m ≠ (withCancel w p).2 := by
        rw [withCancel_def, newChildNode_id]
        exact Nat.ne_of_lt hm
      rw [getNode_setSignal, getNode_onDidCancel_ne hmc, withCancel_def]
      exact newChildNode_get_other hm hmp
    · have hpc : p ≠ (withCancel w p).2 := by
        rw [withCancel_def, newChildNode_id]
        exact Nat.ne_of_lt hp
      rw [getNode_setSignal, getNode_onDidCancel_ne hpc, withCancel_def,
        newChildNode_get_parent hpnd, hpnd]
      rfl
    · rw [setSignal_now]
      simp [withCancel_def]
    · rw [setSignal_trace]
      simp [withCancel_def]
    · rw [setSignal_nodes]
      simp [withCancel_def]

end StdCtx

namespace StdCtx

set_option maxHeartbeats 1000000 in
/-- Deriving a chain of children with the public API (each step from the
previous step's node) produces exactly the `ChainAt` shape starting at the
first fresh id, leaves every pre-existing node except the starting parent
untouched, pushes one cascade subscription onto the parent, and preserves
time, trace, and allocates one node per step. -/
theorem buildChain_chainAt :
    ∀ (steps : List StepSpec) (w : World) (p : Nat),
    p < w.nodes.length →
    (getNode w p).bind (·.baseDeadline) = none →
    (∀ st ∈ steps, (specVariant w.now st).isPre = false) →
    ChainAt (buildChain w p steps) p w.nodes.length steps.length
    ∧ (buildChain w p steps).now = w.now
    ∧ (buildChain w p steps).trace = w.trace
    ∧ (buildChain w p steps).nodes.length = w.nodes.length + steps.length
    ∧ (∀ m, m < w.nodes.length → m ≠ p →
        getNode (buildChain w p steps) m = getNode w m)
    ∧ (steps = [] → buildChain w p steps = w)
    ∧ (steps ≠ [] → getNode (buildChain w p steps) p = (getNode w p).map
        (fun pnd => { pnd with handlers := some (.cascade w.nodes.length :: pnd.handlers.getD []) })) := by
  intro steps
  induction steps with
  | nil =>
    intro w p hp hbase _
    refine ⟨trivial, rfl, rfl, rfl, fun m _ _ => rfl, fun _ => rfl, fun h => absurd rfl h⟩
  | cons st rest ih =>
    intro w p hp hbase hlive
    obtain ⟨hS1, hS2, hS3, hS4, hSnow, hStr, hSlen⟩ :=
      buildStep_facts w p st hp hbase (hlive st (by simp))
    have hplt1 : w.nodes.length < (buildStep w p st).1.nodes.length := by
      rw [hSlen]
      omega
    have hbase1 : (getNode (buildStep w p st).1 w.nodes.length).bind
        (·.baseDeadline) = none := by
      rw [hS2]
      rfl
    have hlive1 : ∀ st2 ∈ rest,
        (specVariant (buildStep w p st).1.now st2).isPre = false := by
      intro st2 hm
      rw [hSnow]
      exact hlive st2 (by simp [hm])
    obtain ⟨hch, hnow, htr, hlen, hframe, hnilc, hconsc⟩ :=
      ih (buildStep w p st).1 w.nodes.length hplt1 hbase1 hlive1
    have hlen1 : (buildStep w p st).1.nodes.length = w.nodes.length + 1 := hSlen
    rw [hlen1] at hch hconsc hframe
    have hheadget : getNode
        (buildChain (buildStep w p st).1 w.nodes.length rest) w.nodes.length
        = some { parentId := some p, baseDeadline := none,
                 variant := specVariant w.now st, cancellationReason := none,
                 handlers := some ((if rest.length = 0 then [] else [.cascade (w.nodes.length + 1)]) ++ specExtras w.now w.nodes.length st ++ [.selfDispose w.nodes.length]),
                 timerArmed := specTimer w.now st } := by
      by_cases hre : rest = []
      · subst hre
        show getNode (buildStep w p st).1 w.nodes.length = _
        rw [hS2]
        simp
      · have hlne : rest.length ≠ 0 := by
          intro h
          exact hre (List.length_eq_zero.mp h)
        rw [hconsc hre, hS2, if_neg hlne]
        rfl
    have hWnow : (buildChain (buildStep w p st).1 w.nodes.length rest).now
        = w.now := by
      rw [hnow, hSnow]
    have hchain : ChainAt (buildChain (buildStep w p st).1 w.nodes.length rest)
        p w.nodes.length (rest.length + 1) := by
      refine ⟨⟨_, specExtras w.now w.nodes.length st, hheadget, rfl, rfl,
        hlive st (by simp), ?_, ?_, ?_, rfl⟩, hch⟩
      · rw [checkCancellationState_eq hheadget]
        cases st with
        | cancelStep => rfl
        | dataStep k v => rfl
        | deadlineStep t msg =>
          have ht : ¬ t ≤ w.now := by
            by_cases h : t ≤ w.now
            · have := hlive (.deadlineStep t msg) (by simp)
              simp [specVariant, h, Variant.isPre] at this
            · exact h
          simp only [hWnow]
          simp [specVariant, if_neg ht, ht]
        | timeoutStep ms msg =>
          have ht : ¬ w.now + ms ≤ w.now := by
            by_cases h : w.now + ms ≤ w.now
            · have := hlive (.timeoutStep ms msg) (by simp)
              simp [specVariant, h, Variant.isPre] at this
            · exact h
          simp only [hWnow]
          simp [specVariant, if_neg ht, ht]
        | signalStep s => rfl
      · intro h hm
        cases st with
        | cancelStep => simp [specExtras] at hm
        | dataStep k v => simp [specExtras] at hm
        | deadlineStep t msg =>
          simp only [specExtras] at hm
          by_cases h2 : t ≤ w.now
          · simp [h2] at hm
          · simp [h2] at hm
            exact ⟨0, Or.inl (by rw [hm])⟩
        | timeoutStep ms msg =>
          simp only [specExtras] at hm
          by_cases h2 : w.now + ms ≤ w.now
          · simp [h2] at hm
          · simp [h2] at hm
            exact ⟨0, Or.inl (by rw [hm])⟩
        | signalStep s =>
          simp only [specExtras, List.mem_singleton] at hm
          exact ⟨s, Or.inr (by rw [hm])⟩
      · cases st with
        | cancelStep => simp [specExtras]
        | dataStep k v => simp [specExtras]
        | deadlineStep t msg =>
          simp only [specExtras]
          by_cases h2 : t ≤ w.now <;> simp [h2]
        | timeoutStep ms msg =>
          simp only [specExtras]
          by_cases h2 : w.now + ms ≤ w.now <;> simp [h2]
        | signalStep s => simp [specExtras]
    refine ⟨?_, ?_, ?_, ?_, ?_, ?_, ?_⟩
    · show ChainAt (buildChain w p (st :: rest)) p w.nodes.length (st :: rest).length
      simp only [buildChain, List.length_cons, hS1]
      exact hchain
    · simp only [buildChain, hS1]
      rw [hnow, hSnow]
    · simp only [buildChain, hS1]
      rw [htr, hStr]
    · simp only [buildChain, List.length_cons, hS1]
      rw [hlen, hSlen]
      omega
    · intro m hm hmp
      simp only [buildChain, hS1]
      have hmc : m ≠ w.nodes.length := by omega
      rw [hframe m (by omega) hmc]
      exact hS3 m hm hmp
    · intro h
      exact absurd h (by simp)
    · intro _
      simp only [buildChain, hS1]
      have hpc : p ≠ w.nodes.length := by omega
      rw [hframe p (by omega) hpc]
      rw [hS4]

end StdCtx

namespace StdCtx

set_option maxHeartbeats 1600000 in
/-- C1 (amended): for every descendant chain built with the public derivation
steps (`withCancel`/`withData`/`withDeadline`/`withTimeout`/`withAbortSignal`)
under a node `p`, where every step yields a *live* child (no step's deadline
has already passed), cancelling the first derived node through its controller
cancels every chain descendant transitively and records in each of them the
*identical* delivered `CancellationError` wrapping the original reason; it
throws nothing, and conversely it never cancels the ancestor `p` (whose
cancellation answer is unchanged) nor any other pre-existing node (siblings
and further ancestors are untouched).  Without the liveness restriction the
cascade stops: a child created under an already-cancelled node is never
reached (its parent's broadcast already ran), as the recorded counterexample
shows. -/
theorem cancel_cascades_through_live_chain
    (w : World) (p : Nat) (steps : List StepSpec) (r : Option Nat) (fuel : Nat)
    (hp : p < w.nodes.length)
    (hbase : (getNode w p).bind (·.baseDeadline) = none)
    (hpcheck : checkCancellationState w p = none)
    (hlive : ∀ st ∈ steps, (specVariant w.now st).isPre = false)
    (hne : steps ≠ [])
    (hfuel : 6 * steps.length + 12 ≤ fuel) :
    ∃ w', cancelViaController fuel (buildChain w p steps) w.nodes.length r = (w', [])
      ∧ (∀ i, i < steps.length →
          (getNode w' (w.nodes.length + i)).map (·.cancellationReason)
            = some (some (.cancellation r)))
      ∧ viewErr w' p = viewErr w p
      ∧ (∀ m, m < w.nodes.length → m ≠ p → getNode w' m = getNode w m)
      ∧ w'.now = w.now ∧ w'.trace = w.trace := by
  obtain ⟨pnd, hpnd⟩ := getNode_of_lt hp
  obtain ⟨hch, hnowB, htrB, hlenB, hframeB, _, hconsB⟩ :=
    buildChain_chainAt steps w p hp hbase hlive
  obtain ⟨k, hk⟩ : ∃ k, steps.length = k + 1 := by
    cases hs : steps with
    | nil => exact absurd hs hne
    | cons a l => exact ⟨l.length, by simp⟩
  rw [hk] at hch
  have hWpcheck : checkCancellationState (buildChain w p steps) p = none := by
    rw [checkCancellationState_congr (w := w) _ hnowB]
    · exact hpcheck
    · rw [hconsB hne, hpnd]
      rfl
  obtain ⟨⟨nd0, bs0, hget0, hpar0, hres0, hpre0, hchk0, hben0, hblen0, hh0⟩, _⟩ := hch
  have hq : getCancellationErrorM fuel (buildChain w p steps) w.nodes.length
      = ((buildChain w p steps), [], none) := by
    cases hv0 : nd0.variant with
    | preCancelled e =>
      rw [hv0] at hpre0
      simp [Variant.isPre] at hpre0
    | plain =>
      simp [getCancellationErrorM, hget0, hv0, hres0, hchk0, hpar0, hWpcheck]
    | withData k2 v2 =>
      simp [getCancellationErrorM, hget0, hv0, hres0, hchk0, hpar0, hWpcheck]
    | withDeadline t msg =>
      simp [getCancellationErrorM, hget0, hv0, hres0, hchk0, hpar0, hWpcheck]
  have hch2 : ChainAt (buildChain w p steps) p w.nodes.length (k + 1) := by
    have h2 := (buildChain_chainAt steps w p hp hbase hlive).1
    rw [hk] at h2
    exact h2
  obtain ⟨w', hcc, hents, hframeC, hqC, hnowC, htrC, hlenC⟩ :=
    cancelChain k fuel (buildChain w p steps) p w.nodes.length
      (.cancellation r) hch2 hp (by omega)
  have hfinal : cancelViaController fuel (buildChain w p steps) w.nodes.length r
      = (w', []) := by
    simp only [cancelViaController, hq, hcc]
    simp
  refine ⟨w', hfinal, ?_, ?_, ?_, ?_, ?_⟩
  · intro i hi
    obtain ⟨nd, _, hafter⟩ := hents i (by omega)
    rw [hafter]
    rfl
  · have hgp' : getNode w' p = some { pnd with handlers :=
        (Option.map (·.erase (Handler.cascade w.nodes.length))
          (some (Handler.cascade w.nodes.length :: pnd.handlers.getD []))) } := by
      rw [hqC, hconsB hne, hpnd]
      rfl
    rw [viewErr_of_get hgp', viewErr_of_get hpnd]
  · intro m hm hmp
    rw [hframeC m hmp (Or.inl hm), hframeB m hm hmp]
  · rw [hnowC, hnowB]
  · rw [htrC, htrB]

end StdCtx

namespace StdCtx

set_option maxHeartbeats 1000000 in
/-- Witness for C1 at a concrete input: a root with a three-step live chain
(`withCancel`, `withData`, `withDeadline` in the future); cancelling the chain
head records the same `CancellationError` in all three chain nodes and throws
nothing. -/
theorem cancel_cascades_through_live_chain_witness :
    ((0 : Nat) < ((createRootContext ({} : World)).1).nodes.length
      ∧ (getNode (createRootContext ({} : World)).1 0).bind (·.baseDeadline) = none
      ∧ checkCancellationState (createRootContext ({} : World)).1 0 = none
      ∧ (∀ st ∈ ([.cancelStep, .dataStep 1 2, .deadlineStep 10 none] : List StepSpec),
          (specVariant ((createRootContext ({} : World)).1).now st).isPre = false)
      ∧ ([.cancelStep, .dataStep 1 2, .deadlineStep 10 none] : List StepSpec) ≠ []
      ∧ 6 * ([.cancelStep, .dataStep 1 2, .deadlineStep 10 none] : List StepSpec).length + 12 ≤ 30)
    ∧ (cancelViaController 30
        (buildChain (createRootContext ({} : World)).1 0
          [.cancelStep, .dataStep 1 2, .deadlineStep 10 none])
        ((createRootContext ({} : World)).1).nodes.length (some 4)).2 = []
    ∧ ∀ i, i < ([.cancelStep, .dataStep 1 2, .deadlineStep 10 none] : List StepSpec).length →
        (getNode (cancelViaController 30
          (buildChain (createRootContext ({} : World)).1 0
            [.cancelStep, .dataStep 1 2, .deadlineStep 10 none])
          ((createRootContext ({} : World)).1).nodes.length (some 4)).1
          (((createRootContext ({} : World)).1).nodes.length + i)).map (·.cancellationReason)
          = some (some (.cancellation (some 4))) := by
  have H := cancel_cascades_through_live_chain (createRootContext ({} : World)).1 0
    [.cancelStep, .dataStep 1 2, .deadlineStep 10 none] (some 4) 30
    (by decide) (by decide) (by decide) (by decide) (by simp) (by decide)
  obtain ⟨w', hf, hents, _, _, _, _⟩ := H
  refine ⟨⟨by decide, by decide, by decide, by decide, by simp, by decide⟩, ?_, ?_⟩
  · rw [hf]
  · intro i hi
    rw [hf]
    exact hents i hi

/-- Counterexample to C1 as stated: root 0, child 1, grandchild 2; node 2 is
cancelled directly (reason 5), then a fresh great-grandchild 3 is derived
under the already-cancelled node 2; cancelling node 1 (reason 7) cancels
node 1 itself but node 3 — a *live* descendant of node 1 — is never reached,
because node 2's callback stack already fired and its new cascade
subscription will never run again. -/
theorem cancel_blocked_by_dead_intermediate_counterexample :
    viewErr (cancelViaController 10
      (withCancel (cancelViaController 10
        (withCancel (withCancel (createRootContext ({} : World)).1 0).1 1).1
        2 (some 5)).1 2).1 1 (some 7)).1 1 = some (.cancellation (some 7))
    ∧ viewErr (cancelViaController 10
      (withCancel (cancelViaController 10
        (withCancel (withCancel (createRootContext ({} : World)).1 0).1 1).1
        2 (some 5)).1 2).1 1 (some 7)).1 2 = some (.cancellation (some 5))
    ∧ viewErr (cancelViaController 10
      (withCancel (cancelViaController 10
        (withCancel (withCancel (createRootContext ({} : World)).1 0).1 1).1
        2 (some 5)).1 2).1 1 (some 7)).1 3 = none := by
  refine ⟨by decide, by decide, by decide⟩

end StdCtx
